import Mathlib

/-!
Verification development for the NYC DOB permits pipeline
(Supabase migrations + edge functions).

The development shallow-embeds the two subsystems the specification covers:

* the incremental ingestion engine
  (src/supabase/functions/dob-permits-sync/index.ts) together with the
  SQL bulk-upsert RPC `upsert_dob_permits` and the watermark helpers
  (src/supabase/migrations/0001_init_schema.sql), and
* the tile generator `dob_permit_tiles` plus the tile request handler
  (src/supabase/functions/tiles/index.ts) with its `mvt_cache` table.

Modelling conventions:

* `timestamptz` values are modelled as `Nat`.  ISO-8601 timestamp strings
  compare lexicographically exactly as their time values do, so both the
  JavaScript string comparisons (`result.max_updated > newestSeen`) and the
  SQL `timestamptz` comparisons are modelled by `Nat` order.  A `date`
  value is modelled by its day code; casting a day code to `timestamptz`
  multiplies by `tsPerDay`.
* text columns are `String`, nullable columns are `Option`-typed,
  `double precision` coordinates are `Rat` (only order comparisons and
  point construction are performed on them in the source).
* a failing SQL statement aborts the whole page transaction: the bulk
  upsert is `Except`-valued and the caller keeps its previous store on
  `error`, which is exactly the transaction-rollback granularity of the
  source (one transaction per page).
-/

set_option autoImplicit false

namespace DobPermits

/-! ### Text parsing model for SQL casts and the handler's date check

These model the behaviour of the external evaluators the source leans on:
PostgreSQL casts (`::timestamptz`, `::date`, `::double precision`) and the
JavaScript `new Date(s + "T00:00:00Z")` validity test.  An unparsable,
non-null input makes the cast raise an error (`none` result), matching
PostgreSQL, where in particular the empty string is a cast error for
dates and timestamps.  Accepted shapes are `YYYY-MM-DD`, optionally
followed by `T` or a space and `HH:MM:SS` with an optional trailing `Z`;
real PostgreSQL accepts more shapes, but every date literal appearing in
this repository is of this form.
-/

def digitVal? (c : Char) : Option Nat :=
  if c.isDigit then some (c.toNat - 48) else none

def natOfDigitsAux : List Char → Nat → Option Nat
  | [], acc => some acc
  | c :: cs, acc =>
    match digitVal? c with
    | some d => natOfDigitsAux cs (acc * 10 + d)
    | none => none

def natOfDigits? (cs : List Char) : Option Nat :=
  if cs.isEmpty then none else natOfDigitsAux cs 0

def isLeapYear (y : Nat) : Bool :=
  y % 4 == 0 && (y % 100 != 0 || y % 400 == 0)

def daysInMonth (y m : Nat) : Nat :=
  if m == 2 then (if isLeapYear y then 29 else 28)
  else if m == 4 || m == 6 || m == 9 || m == 11 then 30
  else 31

def validYMD (y m d : Nat) : Bool :=
  1 ≤ m && m ≤ 12 && 1 ≤ d && d ≤ daysInMonth y m

/-- Seconds per day rounded up to a readable unit; a timestamp is
`dayCode * tsPerDay + seconds-within-day`. -/
def tsPerDay : Nat := 100000

def dayCode (y m d : Nat) : Nat := (y * 13 + m) * 32 + d

def parseYMD? : List Char → Option (Nat × Nat × Nat × List Char)
  | y1 :: y2 :: y3 :: y4 :: '-' :: m1 :: m2 :: '-' :: d1 :: d2 :: rest =>
    match natOfDigits? [y1, y2, y3, y4], natOfDigits? [m1, m2], natOfDigits? [d1, d2] with
    | some y, some m, some d => if validYMD y m d then some (y, m, d, rest) else none
    | _, _, _ => none
  | _ => none

def parseHMS? : List Char → Option (Nat × Nat × Nat)
  | [h1, h2, ':', m1, m2, ':', s1, s2] =>
    match natOfDigits? [h1, h2], natOfDigits? [m1, m2], natOfDigits? [s1, s2] with
    | some h, some mi, some se =>
      if h < 24 && mi < 60 && se < 60 then some (h, mi, se) else none
    | _, _, _ => none
  | h1 :: h2 :: ':' :: m1 :: m2 :: ':' :: s1 :: s2 :: ['Z'] =>
    match natOfDigits? [h1, h2], natOfDigits? [m1, m2], natOfDigits? [s1, s2] with
    | some h, some mi, some se =>
      if h < 24 && mi < 60 && se < 60 then some (h, mi, se) else none
    | _, _, _ => none
  | _ => none

/-- Model of the PostgreSQL cast `text::timestamptz`; `none` is a raised
cast error (note that the empty string is an error, not null). -/
def sqlCastTimestamp? (s : String) : Option Nat :=
  match parseYMD? s.data with
  | none => none
  | some (y, m, d, rest) =>
    match rest with
    | [] => some (dayCode y m d * tsPerDay)
    | sep :: tl =>
      if sep == 'T' || sep == ' ' then
        match parseHMS? tl with
        | some (h, mi, se) => some (dayCode y m d * tsPerDay + h * 3600 + mi * 60 + se)
        | none => none
      else none

/-- Model of the PostgreSQL cast `text::date` (a timestamp literal is
accepted and truncated to its day). -/
def sqlCastDate? (s : String) : Option Nat :=
  (sqlCastTimestamp? s).map (fun t => t / tsPerDay)

def splitAtDot : List Char → List Char × Option (List Char)
  | [] => ([], none)
  | '.' :: rest => ([], some rest)
  | c :: rest =>
    let p := splitAtDot rest
    (c :: p.1, p.2)

def fracOfDigitsAux : List Char → Nat → Nat → Option (Nat × Nat)
  | [], num, den => some (num, den)
  | c :: cs, num, den =>
    match digitVal? c with
    | some d => fracOfDigitsAux cs (num * 10 + d) (den * 10)
    | none => none

/-- Model of the PostgreSQL cast `text::double precision` for the decimal
literals the upstream feed carries; `none` is a raised cast error. -/
def sqlCastFloat? (s : String) : Option Rat :=
  let signed : Bool × List Char :=
    match s.data with
    | '-' :: rest => (true, rest)
    | '+' :: rest => (false, rest)
    | cs => (false, cs)
  let parts := splitAtDot signed.2
  let mag : Option Rat :=
    match parts.2 with
    | none => (natOfDigits? parts.1).map (fun n => (n : Rat))
    | some fds =>
      match natOfDigits? parts.1, fracOfDigitsAux fds 0 1 with
      | some n, some fr => some ((n : Rat) + (fr.1 : Rat) / (fr.2 : Rat))
      | _, _ => none
  mag.map (fun v => if signed.1 then -v else v)

def dropLeadingSpaces : List Char → List Char
  | [] => []
  | c :: cs => if c == ' ' then dropLeadingSpaces cs else c :: cs

/-- SQL `trim(s)`: strip leading and trailing space characters. -/
def sqlTrim (s : String) : String :=
  String.mk ((dropLeadingSpaces (dropLeadingSpaces s.data.reverse).reverse))

/-- SQL `nullif(trim(x), chr(39) ++ chr(39))` over a nullable input: a null
stays null, a value that trims to the empty string becomes null. -/
def nullifTrimEmpty (o : Option String) : Option String :=
  o.bind (fun s => let t := sqlTrim s; if t == "" then none else some t)

end DobPermits

namespace DobPermits

/-! ### Upstream records and the stage CTE of `upsert_dob_permits`

`RawRecord` models one Socrata JSON record: every key the stage CTE reads
appears as an `Option String` field (`r ->> k` is null when the key is
absent), except `:updated_at`, which is modelled directly as an optional
`Nat` timestamp (see the conventions above).  Field names mirror the JSON
keys, with the system keys `:id` and `:updated_at` rendered as `sysId`
and `sysUpdatedAt`. -/
structure RawRecord where
  sysId : Option String := none
  sysUpdatedAt : Option Nat := none
  borough : Option String := none
  bin__ : Option String := none
  bin : Option String := none
  house__ : Option String := none
  house_no : Option String := none
  street_name : Option String := none
  job__ : Option String := none
  job_number : Option String := none
  permit_si_no : Option String := none
  permit_number : Option String := none
  work_type : Option String := none
  permit_type : Option String := none
  permit_status : Option String := none
  permit_status_date : Option String := none
  issuance_date : Option String := none
  permit_issuance_date : Option String := none
  expiration_date : Option String := none
  job_start_date : Option String := none
  zip_code : Option String := none
  zipcode : Option String := none
  bbl : Option String := none
  community_board : Option String := none
  gis_latitude : Option String := none
  gis_longitude : Option String := none
  gis_council_district : Option String := none
  council_district : Option String := none
  nta_name : Option String := none
  job_type : Option String := none
  bldg_type : Option String := none
  residential : Option String := none
  dobrundate : Option String := none
  permit_subtype : Option String := none
  filing_status : Option String := none
  filing_date : Option String := none
  site_fill : Option String := none
  oil_gas : Option String := none
  self_cert : Option String := none
  special_district_1 : Option String := none
  special_district_2 : Option String := none
  permit_sequence__ : Option String := none
  permit_sequence_no : Option String := none
  owner_s_business_name : Option String := none
  owner_s_first_name : Option String := none
  owner_s_last_name : Option String := none
  permittee_s_business_name : Option String := none
  permittee_s_first_name : Option String := none
  permittee_s_last_name : Option String := none
  owner_s_phone : Option String := none
  permittee_s_phone : Option String := none
  owner_s_address : Option String := none
  permittee_s_address : Option String := none
  owner_s_city : Option String := none
  permittee_s_city : Option String := none
  owner_s_state : Option String := none
  permittee_s_state : Option String := none
  owner_s_zip : Option String := none
  permittee_s_zip : Option String := none
  owner_s_license_type : Option String := none
  permittee_s_license_type : Option String := none
  owner_s_license_number : Option String := none
  permittee_s_license_number : Option String := none
  block : Option String := none
  lot : Option String := none
  gis_census_tract : Option String := none
  census_tract : Option String := none
  deriving Repr, DecidableEq

/-- One row of the `stage` CTE, with the same column names and with the
casts of the CTE already performed (dates as day codes, coordinates as
rationals). -/
structure StagedRow where
  id : Option String := none
  updated_at : Option Nat := none
  borough : Option String := none
  bin : Option String := none
  house_no : Option String := none
  street_name : Option String := none
  job_number : Option String := none
  permit_number : Option String := none
  work_type : Option String := none
  permit_type : Option String := none
  permit_status : Option String := none
  permit_status_date : Option Nat := none
  permit_issuance_date_str : Option String := none
  expiration_date : Option Nat := none
  job_start_date : Option Nat := none
  zipcode : Option String := none
  bbl : Option String := none
  community_board : Option String := none
  gis_latitude : Option Rat := none
  gis_longitude : Option Rat := none
  council_district : Option String := none
  nta_name : Option String := none
  job_type : Option String := none
  bldg_type : Option String := none
  residential : Option String := none
  dobrundate_str : Option String := none
  permit_subtype : Option String := none
  filing_status : Option String := none
  filing_date_str : Option String := none
  site_fill : Option String := none
  oil_gas : Option String := none
  self_cert : Option String := none
  special_district_1 : Option String := none
  special_district_2 : Option String := none
  permit_sequence_no : Option String := none
  owner_business_name : Option String := none
  owner_first_name : Option String := none
  owner_last_name : Option String := none
  permittee_business_name : Option String := none
  permittee_first_name : Option String := none
  permittee_last_name : Option String := none
  owner_phone : Option String := none
  permittee_phone : Option String := none
  owner_address : Option String := none
  permittee_address : Option String := none
  owner_city : Option String := none
  permittee_city : Option String := none
  owner_state : Option String := none
  permittee_state : Option String := none
  owner_zip : Option String := none
  permittee_zip : Option String := none
  owner_license_type : Option String := none
  permittee_license_type : Option String := none
  owner_license_number : Option String := none
  permittee_license_number : Option String := none
  block : Option String := none
  lot : Option String := none
  census_tract : Option String := none
  raw : RawRecord
  deriving Repr, DecidableEq

/-- Lift the `::date` cast to a nullable column: null stays null, an
unparsable value (including the empty string) raises. -/
def castDateCol (o : Option String) : Except String (Option Nat) :=
  match o with
  | none => Except.ok none
  | some s =>
    match sqlCastDate? s with
    | some v => Except.ok (some v)
    | none => Except.error "invalid input syntax for type date"

/-- Lift the `::timestamptz` cast to a nullable column. -/
def castTimestampCol (o : Option String) : Except String (Option Nat) :=
  match o with
  | none => Except.ok none
  | some s =>
    match sqlCastTimestamp? s with
    | some v => Except.ok (some v)
    | none => Except.error "invalid input syntax for type timestamptz"

/-- Lift the `::double precision` cast to a nullable column. -/
def castFloatCol (o : Option String) : Except String (Option Rat) :=
  match o with
  | none => Except.ok none
  | some s =>
    match sqlCastFloat? s with
    | some v => Except.ok (some v)
    | none => Except.error "invalid input syntax for type double precision"

/-- The select list of the `stage` CTE for one record.  The five casts it
performs (`permit_status_date`, `expiration_date`, `job_start_date` to
`date`; the two coordinates to `double precision`) are the only failure
points; every other column is passed through as text, with the `coalesce`
fallback chains of the source. -/
def stageRecord (r : RawRecord) : Except String StagedRow := do
  let psd ← castDateCol r.permit_status_date
  let exd ← castDateCol r.expiration_date
  let jsd ← castDateCol r.job_start_date
  let lat ← castFloatCol r.gis_latitude
  let lon ← castFloatCol r.gis_longitude
  Except.ok
    { id := r.sysId
      updated_at := r.sysUpdatedAt
      borough := r.borough
      bin := (r.bin__).orElse (fun _ => r.bin)
      house_no := (r.house__).orElse (fun _ => r.house_no)
      street_name := r.street_name
      job_number := (r.job__).orElse (fun _ => r.job_number)
      permit_number := (r.permit_si_no).orElse (fun _ => r.permit_number)
      work_type := r.work_type
      permit_type := r.permit_type
      permit_status := r.permit_status
      permit_status_date := psd
      permit_issuance_date_str := (r.issuance_date).orElse (fun _ => r.permit_issuance_date)
      expiration_date := exd
      job_start_date := jsd
      zipcode := (r.zip_code).orElse (fun _ => r.zipcode)
      bbl := r.bbl
      community_board := r.community_board
      gis_latitude := lat
      gis_longitude := lon
      council_district := (r.gis_council_district).orElse (fun _ => r.council_district)
      nta_name := r.nta_name
      job_type := r.job_type
      bldg_type := r.bldg_type
      residential := r.residential
      dobrundate_str := r.dobrundate
      permit_subtype := r.permit_subtype
      filing_status := r.filing_status
      filing_date_str := r.filing_date
      site_fill := r.site_fill
      oil_gas := r.oil_gas
      self_cert := r.self_cert
      special_district_1 := r.special_district_1
      special_district_2 := r.special_district_2
      permit_sequence_no := (r.permit_sequence__).orElse (fun _ => r.permit_sequence_no)
      owner_business_name := r.owner_s_business_name
      owner_first_name := r.owner_s_first_name
      owner_last_name := r.owner_s_last_name
      permittee_business_name := r.permittee_s_business_name
      permittee_first_name := r.permittee_s_first_name
      permittee_last_name := r.permittee_s_last_name
      owner_phone := r.owner_s_phone
      permittee_phone := r.permittee_s_phone
      owner_address := r.owner_s_address
      permittee_address := r.permittee_s_address
      owner_city := r.owner_s_city
      permittee_city := r.permittee_s_city
      owner_state := r.owner_s_state
      permittee_state := r.permittee_s_state
      owner_zip := r.owner_s_zip
      permittee_zip := r.permittee_s_zip
      owner_license_type := r.owner_s_license_type
      permittee_license_type := r.permittee_s_license_type
      owner_license_number := r.owner_s_license_number
      permittee_license_number := r.permittee_s_license_number
      block := r.block
      lot := r.lot
      census_tract := (r.gis_census_tract).orElse (fun _ => r.census_tract)
      raw := r }

/-- The whole materialised `stage` CTE: every row's select list is
evaluated; any failing cast aborts the page transaction. -/
def stagePage (rows : List RawRecord) : Except String (List StagedRow) :=
  rows.mapM stageRecord

end DobPermits

namespace DobPermits

/-! ### Normalized store rows and generic keyed upsert -/

/-- A PostGIS point, as `(longitude, latitude)` in the order
`ST_Point(lon, lat)` and `jsonb_build_array(lon, lat)` construct it. -/
abbrev Point := Rat × Rat

/-- Model of `create_geojson_point(lat, lon)` from the migration. -/
def create_geojson_point (lat lon : Option Rat) : Option Point :=
  match lat, lon with
  | some la, some lo =>
    if -90 ≤ la ∧ la ≤ 90 ∧ -180 ≤ lo ∧ lo ≤ 180 then some (lo, la) else none
  | _, _ => none

/-- Model of the `populate_geom_from_coords` trigger body: the value both
`geom` and `geom_4326` receive on every insert or update of
`dob_permits`. -/
def populate_geom_from_coords (lat lon : Option Rat) : Option Point :=
  match lat, lon with
  | some la, some lo =>
    if -90 ≤ la ∧ la ≤ 90 ∧ -180 ≤ lo ∧ lo ≤ 180 then some (lo, la) else none
  | _, _ => none

structure BuildingRow where
  bin : String
  block : Option String
  lot : Option String
  borough : Option String
  street_name : Option String
  house_no : Option String
  zipcode : Option String
  census_tract : Option String
  nta_name : Option String
  deriving Repr, DecidableEq

structure DetailRow where
  permit_number : String
  job_number : Option String
  permit_sequence_no : Option String
  permit_subtype : Option String
  filing_status : Option String
  filing_date : Option Nat
  site_fill : Option String
  oil_gas : Option String
  self_cert : Option String
  special_district_1 : Option String
  special_district_2 : Option String
  deriving Repr, DecidableEq

/-- A `dob_entities` row; `entity_id uuid default gen_random_uuid()` is
modelled by a store-scoped counter. -/
structure EntityRow where
  entity_id : Nat
  entity_type : String
  full_name : Option String
  business_name : Option String
  license_type : Option String
  license_number : Option String
  phone : Option String
  address : Option String
  city : Option String
  state : Option String
  zip : Option String
  deriving Repr, DecidableEq

/-- A `dob_permits` row, including the generated columns (`geojson`,
`permit_month`) and the trigger-maintained `geom`/`geom_4326`. -/
structure PermitRow where
  id : String
  updated_at : Nat
  borough : Option String := none
  bin : Option String := none
  gis_latitude : Option Rat := none
  gis_longitude : Option Rat := none
  community_board : Option String := none
  council_district : Option String := none
  nta_name : Option String := none
  zipcode : Option String := none
  permit_issuance_date : Option Nat := none
  expiration_date : Option Nat := none
  job_start_date : Option Nat := none
  permit_status : Option String := none
  permit_type : Option String := none
  work_type : Option String := none
  job_type : Option String := none
  bldg_type : Option String := none
  residential : Option String := none
  dobrundate : Option Nat := none
  permit_number : Option String := none
  raw : RawRecord
  geojson : Option Point := none
  geom : Option Point := none
  geom_4326 : Option Point := none
  permit_month : Option Nat := none
  deriving Repr, DecidableEq

/-- A row of the `mvt_cache` table. -/
structure CacheEntry where
  layer : String
  z : Int
  x : Int
  y : Int
  since : String
  untilKey : String
  mvt : List Nat
  updated_at : Nat
  deriving Repr, DecidableEq

/-- The normalized store: the four entity groups, the single-dataset row
of `dataset_sync_state`, and the tile cache. -/
structure Store where
  dob_buildings : List BuildingRow
  dob_permit_details : List DetailRow
  dob_entities : List EntityRow
  nextEntityId : Nat
  dob_permits : List PermitRow
  dataset_sync_state : Option Nat
  mvt_cache : List CacheEntry
  deriving Repr, DecidableEq

def emptyStore : Store :=
  { dob_buildings := []
    dob_permit_details := []
    dob_entities := []
    nextEntityId := 0
    dob_permits := []
    dataset_sync_state := none
    mvt_cache := [] }

/-- Generic `insert ... on conflict (key) do update`: replace the matching
row in place via `merge old new`, else append. -/
def upsertByKey {ρ κ : Type} [BEq κ] (key : ρ → κ) (merge : ρ → ρ → ρ)
    (t : List ρ) (r : ρ) : List ρ :=
  if t.any (fun x => key x == key r) then
    t.map (fun x => if key x == key r then merge x r else x)
  else t ++ [r]

def foldUpsert {ρ κ : Type} [BEq κ] (key : ρ → κ) (merge : ρ → ρ → ρ)
    (t : List ρ) (rows : List ρ) : List ρ :=
  rows.foldl (upsertByKey key merge) t

/-- `select distinct on (key) ...` with no `order by`: PostgreSQL picks an
unspecified row per key; the model keeps the first occurrence. -/
def dedupByKey {ρ κ : Type} [BEq κ] (key : ρ → κ) (rows : List ρ) : List ρ :=
  rows.foldl (fun acc r => if acc.any (fun x => key x == key r) then acc else acc ++ [r]) []

/-- Stable insertion used to model an `order by`: a row moves past every
row it is not strictly below. -/
def sortInsert {ρ : Type} (lt : ρ → ρ → Bool) (r : ρ) : List ρ → List ρ
  | [] => [r]
  | x :: xs => if lt r x then r :: x :: xs else x :: sortInsert lt r xs

def sortBy {ρ : Type} (lt : ρ → ρ → Bool) (rows : List ρ) : List ρ :=
  rows.foldl (fun acc r => sortInsert lt r acc) []

end DobPermits

namespace DobPermits

/-! ### The four steps of `upsert_dob_permits` -/

/-- Step 1 select list: buildings referenced by the page
(`where bin is not null`, `distinct on (bin)` picking an unspecified row,
modelled as the first occurrence). -/
def buildingCand? (s : StagedRow) : Option BuildingRow :=
  s.bin.map (fun b =>
    { bin := b
      block := s.block
      lot := s.lot
      borough := s.borough
      street_name := s.street_name
      house_no := s.house_no
      zipcode := s.zipcode
      census_tract := s.census_tract
      nta_name := s.nta_name })

def buildingRowsOf (staged : List StagedRow) : List BuildingRow :=
  dedupByKey (fun b => b.bin) (staged.filterMap buildingCand?)

def buildingsApply (t : List BuildingRow) (staged : List StagedRow) : List BuildingRow :=
  foldUpsert (fun b => b.bin) (fun _ new => new) t (buildingRowsOf staged)

/-- The `case when filing_date_str is not null and filing_date_str != ...
then cast else null` guard of step 2 (and the identical guards of
step 4): null and the empty string store as null, anything else must
cast. -/
def guardedTimestampCast (o : Option String) : Except String (Option Nat) :=
  match o with
  | none => Except.ok none
  | some str => if str == "" then Except.ok none else castTimestampCol (some str)

/-- Step 2 select list for one staged row (`where permit_number is not
null` filters before the projection casts `filing_date`). -/
def detailCast (s : StagedRow) : Except String (Option DetailRow) :=
  match s.permit_number with
  | none => Except.ok none
  | some pn => do
    let fd ← guardedTimestampCast s.filing_date_str
    Except.ok (some
      { permit_number := pn
        job_number := s.job_number
        permit_sequence_no := s.permit_sequence_no
        permit_subtype := s.permit_subtype
        filing_status := s.filing_status
        filing_date := fd
        site_fill := s.site_fill
        oil_gas := s.oil_gas
        self_cert := s.self_cert
        special_district_1 := s.special_district_1
        special_district_2 := s.special_district_2 })

def detailRowsOf (staged : List StagedRow) : Except String (List DetailRow) := do
  let l ← staged.mapM detailCast
  Except.ok (dedupByKey (fun d => d.permit_number) (l.filterMap id))

def detailsApply (t : List DetailRow) (rows : List DetailRow) : List DetailRow :=
  foldUpsert (fun d => d.permit_number) (fun _ new => new) t rows

/-- An entity candidate of step 3, before `distinct on`. -/
structure EntityCand where
  entity_type : String
  full_name : String
  business_name : Option String
  license_type : Option String
  license_number : Option String
  phone : Option String
  address : Option String
  city : Option String
  state : Option String
  zip : Option String
  deriving Repr, DecidableEq

/-- Models `x is not null and trim(x) != ...empty...`. -/
def nonBlank (o : Option String) : Bool :=
  match o with
  | some v => sqlTrim v != ""
  | none => false

/-- The owner branch of the `union all` (with its `where`). -/
def ownerCand? (s : StagedRow) : Option EntityCand :=
  if nonBlank s.owner_business_name || nonBlank s.owner_first_name || nonBlank s.owner_last_name then
    some
      { entity_type := "owner"
        full_name := sqlTrim ((s.owner_first_name.getD "") ++ " " ++ (s.owner_last_name.getD ""))
        business_name := nullifTrimEmpty s.owner_business_name
        license_type := s.owner_license_type
        license_number := s.owner_license_number
        phone := s.owner_phone
        address := s.owner_address
        city := s.owner_city
        state := s.owner_state
        zip := s.owner_zip }
  else none

/-- The permittee branch of the `union all` (with its `where`). -/
def permitteeCand? (s : StagedRow) : Option EntityCand :=
  if nonBlank s.permittee_business_name || nonBlank s.permittee_first_name || nonBlank s.permittee_last_name then
    some
      { entity_type := "permittee"
        full_name := sqlTrim ((s.permittee_first_name.getD "") ++ " " ++ (s.permittee_last_name.getD ""))
        business_name := nullifTrimEmpty s.permittee_business_name
        license_type := s.permittee_license_type
        license_number := s.permittee_license_number
        phone := s.permittee_phone
        address := s.permittee_address
        city := s.permittee_city
        state := s.permittee_state
        zip := s.permittee_zip }
  else none

/-- The combined candidate list of step 3 after the outer `where
(business_name is not null) or (full_name is not null and trim(full_name)
!= ...)`; `full_name` is a concatenation, hence never null. -/
def entityCands (staged : List StagedRow) : List EntityCand :=
  ((staged.filterMap ownerCand?) ++ (staged.filterMap permitteeCand?)).filter
    (fun c => c.business_name.isSome || sqlTrim c.full_name != "")

/-- Code-point comparison of character lists: the order `String <`
denotes (the model's stand-in for the PostgreSQL collation). -/
def charListLt : List Char → List Char → Bool
  | [], [] => false
  | [], _ :: _ => true
  | _ :: _, [] => false
  | c :: cs, d :: ds =>
    if c.toNat < d.toNat then true
    else if d.toNat < c.toNat then false
    else charListLt cs ds

def strLtB (a b : String) : Bool := charListLt a.data b.data

/-- The sort key of `order by entity_type, business_name nulls last,
full_name` (strict comparison; `distinct on` grouping treats nulls as
equal). -/
def entityOrderLt (a b : EntityCand) : Bool :=
  strLtB a.entity_type b.entity_type ||
    (a.entity_type == b.entity_type &&
      (optStrLtNullsLast a.business_name b.business_name ||
        (a.business_name == b.business_name && strLtB a.full_name b.full_name)))
where
  optStrLtNullsLast : Option String → Option String → Bool
    | some x, some y => strLtB x y
    | some _, none => true
    | none, _ => false

/-- Step 3's `distinct on (entity_type, business_name)` over the ordered
candidates: note that, as in PostgreSQL, two null business names fall in
the same group. -/
def entitySurvivors (staged : List StagedRow) : List EntityCand :=
  dedupByKey (fun c => (c.entity_type, c.business_name)) (sortBy entityOrderLt (entityCands staged))

def entityRowOfCand (i : Nat) (c : EntityCand) : EntityRow :=
  { entity_id := i
    entity_type := c.entity_type
    full_name := some c.full_name
    business_name := c.business_name
    license_type := c.license_type
    license_number := c.license_number
    phone := c.phone
    address := c.address
    city := c.city
    state := c.state
    zip := c.zip }

/-- A stored row conflicts with a candidate on the partial unique index
`(entity_type, business_name) where business_name is not null`. -/
def entityKeyMatch (e : EntityRow) (c : EntityCand) : Bool :=
  e.entity_type == c.entity_type && e.business_name == c.business_name

/-- One survivor of step 3's insert: a candidate with a non-null
business name that hits the partial unique index updates the existing
row (keeping its `entity_id`); every other candidate — in particular
every null-named one — is a fresh insert. -/
def entitiesInsertStep (acc : List EntityRow × Nat) (c : EntityCand) : List EntityRow × Nat :=
  if c.business_name.isSome && acc.1.any (fun e => entityKeyMatch e c) then
    (acc.1.map (fun e => if entityKeyMatch e c then entityRowOfCand e.entity_id c else e), acc.2)
  else
    (acc.1 ++ [entityRowOfCand acc.2 c], acc.2 + 1)

/-- Step 3's insert statement over the deduplicated candidates. -/
def entitiesApply (t : List EntityRow) (nid : Nat) (staged : List StagedRow) :
    List EntityRow × Nat :=
  (entitySurvivors staged).foldl entitiesInsertStep (t, nid)

/-- Step 4's select list for one staged row, including the not-null
checks of the `dob_permits` key columns, the guarded
`permit_issuance_date`/`dobrundate` casts, the date-to-timestamp widening
of `expiration_date`/`job_start_date`, the generated columns, and the
`populate_geom_from_coords` trigger. -/
def permitRowOf (s : StagedRow) : Except String PermitRow := do
  let id ← match s.id with
    | some i => Except.ok i
    | none => Except.error "null value in column id of relation dob_permits"
  let upd ← match s.updated_at with
    | some u => Except.ok u
    | none => Except.error "null value in column updated_at of relation dob_permits"
  let iss ← guardedTimestampCast s.permit_issuance_date_str
  let dob ← guardedTimestampCast s.dobrundate_str
  Except.ok
    { id := id
      updated_at := upd
      borough := s.borough
      bin := s.bin
      gis_latitude := s.gis_latitude
      gis_longitude := s.gis_longitude
      community_board := s.community_board
      council_district := s.council_district
      nta_name := s.nta_name
      zipcode := s.zipcode
      permit_issuance_date := iss
      expiration_date := s.expiration_date.map (fun d => d * tsPerDay)
      job_start_date := s.job_start_date.map (fun d => d * tsPerDay)
      permit_status := s.permit_status
      permit_type := s.permit_type
      work_type := s.work_type
      job_type := s.job_type
      bldg_type := s.bldg_type
      residential := s.residential
      dobrundate := dob
      permit_number := s.permit_number
      raw := s.raw
      geojson := create_geojson_point s.gis_latitude s.gis_longitude
      geom := populate_geom_from_coords s.gis_latitude s.gis_longitude
      geom_4326 := populate_geom_from_coords s.gis_latitude s.gis_longitude
      permit_month := iss.map (fun t => t / tsPerDay / 32) }

def permitRowsOf (staged : List StagedRow) : Except String (List PermitRow) :=
  staged.mapM permitRowOf

def permitsApply (t : List PermitRow) (rows : List PermitRow) : List PermitRow :=
  foldUpsert (fun p => p.id) (fun _ new => new) t rows

/-- Count of page rows whose key is new to the table: the rows the
`returning (xmax = 0)` classification reports as inserted.  (Pages are
assumed not to repeat an id; PostgreSQL would reject such a page with a
cannot-affect-row-a-second-time error.) -/
def countInserted (t : List PermitRow) (rows : List PermitRow) : Nat :=
  (rows.filter (fun r => !(t.any (fun x => x.id == r.id)))).length

def maxTs? (l : List Nat) : Option Nat :=
  l.foldl (fun acc t => match acc with
    | none => some t
    | some m => some (max m t)) none

structure UpsertResult where
  inserted : Nat
  updated : Nat
  max_updated : Option Nat
  deriving Repr, DecidableEq

/-- The RPC `upsert_dob_permits(_rows)`: one transaction per page.  A
failing cast or not-null violation anywhere aborts the whole page
(`Except.error`), in which case the caller's store is unchanged. -/
def upsert_dob_permits (_rows : List RawRecord) (s : Store) :
    Except String (Store × UpsertResult) := do
  let staged ← stagePage _rows
  let dRows ← detailRowsOf staged
  let pRows ← permitRowsOf staged
  Except.ok
    ( { s with
        dob_buildings := buildingsApply s.dob_buildings staged
        dob_permit_details := detailsApply s.dob_permit_details dRows
        dob_entities := (entitiesApply s.dob_entities s.nextEntityId staged).1
        nextEntityId := (entitiesApply s.dob_entities s.nextEntityId staged).2
        dob_permits := permitsApply s.dob_permits pRows },
      { inserted := countInserted s.dob_permits pRows
        updated := pRows.length - countInserted s.dob_permits pRows
        max_updated := maxTs? (staged.filterMap (fun r => r.updated_at)) } )

/-- The RPC `current_dob_watermark()`:
`coalesce(max(updated_at), epoch)` over `dob_permits`. -/
def current_dob_watermark (s : Store) : Nat :=
  (maxTs? (s.dob_permits.map (fun p => p.updated_at))).getD 0

end DobPermits

namespace DobPermits

/-! ### The ingestion engine (edge function dob-permits-sync)

The upstream list models the Socrata dataset already in the order the
request demands (`$order=:updated_at ASC`); a page request applies the
`$where` filter to it server-side and then `$offset`/`$limit`
pagination.  Network transport is modelled as reliable: retries and
transient HTTP failures do not occur, which only ever helps the engine
complete a run. -/

inductive SyncMode where
  | historical
  | incremental
  deriving Repr, DecidableEq, BEq

def PAGE_SIZE : Nat := 5000

/-- Tail-recursive list length (`records.length`); evaluates by
accumulation so that concrete runs over page-sized lists reduce
iteratively. -/
def listLen {α : Type} (l : List α) : Nat :=
  l.foldl (fun n _ => n + 1) 0

/-- One Socrata page request: `$where = :updated_at > newestSeen
[and :updated_at <= until]`, `$order = :updated_at ASC`,
`$offset = page * PAGE_SIZE`, `$limit = PAGE_SIZE`. -/
def fetchPage (upstream : List RawRecord) (newestSeen : Nat) (untilP : Option Nat)
    (offset limit : Nat) : List RawRecord :=
  (((upstream.filter (fun r =>
      match r.sysUpdatedAt with
      | some t => newestSeen < t && (match untilP with
        | some u => t ≤ u
        | none => true)
      | none => false)).drop offset).take limit)

structure LoopState where
  page : Nat
  newestSeen : Nat
  maxUpdatedAt : Option Nat
  store : Store
  totalProcessed : Nat
  totalInserted : Nat
  totalUpdated : Nat
  appliedPages : List (List RawRecord)

/-- The `while (true)` pagination loop.  Each iteration fetches one page,
applies it through `upsert_dob_permits` (a thrown upsert error aborts the
run with the pages so far committed), advances the rolling watermark to
the store-reported maximum when it grew, and stops on a short or empty
page.  `fuel` dominates the page count; running out is reported as a
failed run and is unreachable when `fuel > upstream.length + 1`. -/
def syncLoop (upstream : List RawRecord) (untilP : Option Nat) :
    Nat → LoopState → LoopState × Bool
  | 0, st => (st, false)
  | fuel + 1, st =>
    let records := fetchPage upstream st.newestSeen untilP (st.page * PAGE_SIZE) PAGE_SIZE
    if listLen records == 0 then (st, true)
    else
      match upsert_dob_permits records st.store with
      | Except.error _ => (st, false)
      | Except.ok (s2, res) =>
        let advance : Bool :=
          match res.max_updated with
          | some m => st.newestSeen < m
          | none => false
        let st2 : LoopState :=
          { page := st.page + 1
            newestSeen := if advance then res.max_updated.getD st.newestSeen else st.newestSeen
            maxUpdatedAt := if advance then res.max_updated else st.maxUpdatedAt
            store := s2
            totalProcessed := st.totalProcessed + listLen records
            totalInserted := st.totalInserted + res.inserted
            totalUpdated := st.totalUpdated + res.updated
            appliedPages := st.appliedPages ++ [records] }
        if listLen records < PAGE_SIZE then (st2, true)
        else syncLoop upstream untilP fuel st2

structure SyncOutcome where
  success : Bool
  mode : SyncMode
  totalProcessed : Nat
  totalInserted : Nat
  totalUpdated : Nat
  lastSyncedUpdatedAt : Option Nat
  store : Store
  appliedPages : List (List RawRecord)

/-- The watermark the run starts from: an explicit `since` wins, else
incremental mode reads the stored watermark via the RPC (whose ISO string
result is always truthy), else null. -/
def resolveWatermark (mode : SyncMode) (sinceP : Option Nat) (s : Store) : Option Nat :=
  match sinceP with
  | some v => some v
  | none =>
    match mode with
    | SyncMode.incremental => some (current_dob_watermark s)
    | SyncMode.historical => none

/-- The preflight probe `max(:updated_at) where :updated_at > wm limit 1`:
does any upstream record lie strictly above the watermark? -/
def hasNewer (u : List RawRecord) (wm : Nat) : Bool :=
  u.any (fun r =>
    match r.sysUpdatedAt with
    | some t => wm < t
    | none => false)

/-- The guard of the preflight early return: incremental mode, no
explicit range, a (always truthy) watermark, and no newer upstream
record. -/
def preflightSkips (mode : SyncMode) (sinceP untilP : Option Nat) (wm : Option Nat)
    (u : List RawRecord) : Bool :=
  match mode, sinceP, untilP, wm with
  | SyncMode.incremental, none, none, some w => !(hasNewer u w)
  | _, _, _, _ => false

/-- The zero-cost no-new-data response. -/
def noopOutcome (mode : SyncMode) (wm : Option Nat) (s : Store) : SyncOutcome :=
  { success := true
    mode := mode
    totalProcessed := 0
    totalInserted := 0
    totalUpdated := 0
    lastSyncedUpdatedAt := wm
    store := s
    appliedPages := [] }

/-- The tail of the edge function after the loop: a thrown error yields
the HTTP 500 outcome without touching `dataset_sync_state`; a completed
loop upserts the new watermark exactly when no explicit range was given
and either a maximum was seen or the mode is historical (falling back to
the wall clock `now`). -/
def finishRun (mode : SyncMode) (sinceP untilP : Option Nat) (now : Nat) :
    LoopState × Bool → SyncOutcome
  | (st, false) =>
    { success := false
      mode := mode
      totalProcessed := st.totalProcessed
      totalInserted := st.totalInserted
      totalUpdated := st.totalUpdated
      lastSyncedUpdatedAt := st.maxUpdatedAt
      store := st.store
      appliedPages := st.appliedPages }
  | (st, true) =>
    let persist : Bool :=
      sinceP.isNone && untilP.isNone && (st.maxUpdatedAt.isSome || mode == SyncMode.historical)
    { success := true
      mode := mode
      totalProcessed := st.totalProcessed
      totalInserted := st.totalInserted
      totalUpdated := st.totalUpdated
      lastSyncedUpdatedAt := st.maxUpdatedAt
      store :=
        if persist then { st.store with dataset_sync_state := some (st.maxUpdatedAt.getD now) }
        else st.store
      appliedPages := st.appliedPages }

/-- The whole edge function `dob-permits-sync` for one invocation:
watermark resolution, the optional preflight probe, the pagination loop,
and the final conditional `dataset_sync_state` upsert.  `now` models
`new Date().toISOString()`. -/
def runSync (mode : SyncMode) (sinceP untilP : Option Nat) (now : Nat)
    (upstream : List RawRecord) (s : Store) : SyncOutcome :=
  let watermark := resolveWatermark mode sinceP s
  if preflightSkips mode sinceP untilP watermark upstream then noopOutcome mode watermark s
  else
    finishRun mode sinceP untilP now
      (syncLoop upstream untilP (listLen upstream + 2)
        { page := 0
          newestSeen := watermark.getD 0
          maxUpdatedAt := none
          store := s
          totalProcessed := 0
          totalInserted := 0
          totalUpdated := 0
          appliedPages := [] })

end DobPermits

namespace DobPermits

/-! ### The tile generator `dob_permit_tiles`

The PostGIS geometry kernel (`ST_TileEnvelope`, `ST_Transform`,
`ST_SnapToGrid`, `ST_AsMVTGeom`, `ST_Intersects`, the `&&` bounding-box
operator, and the `ST_AsMVT` encoder) is an external library, not
repository code: it is modelled as an arbitrary fixed interpretation
bundled in `PostgisInterp`, and every theorem about the tile layer holds
for every interpretation.  `Env` stands for `geometry` values of the
tile envelope, `Point` for the stored point geometries. -/

abbrev Env := Point × Point

/-- One feature row of the `mvtgeom` CTE (the fixed attribute set plus
the clipped geometry). -/
structure Feature where
  id : String
  permit_type : Option String
  permit_status : Option String
  permit_issuance_date : Option Nat
  borough : Option String
  geom : Point
  deriving Repr, DecidableEq

structure PostgisInterp where
  tileEnvelope : Int → Int → Int → Env
  transformTo3857 : Point → Point
  transformEnvTo4326 : Env → Env
  bboxOverlap4326 : Point → Env → Bool
  bboxOverlap3857 : Point → Env → Bool
  intersects3857 : Point → Env → Bool
  snapToGrid : Point → Nat → Point
  asMVTGeom : Point → Env → Option Point
  asMVT : List Feature → List Nat

/-- The `src` CTE of `dob_permit_tiles`: permits with non-null
`geom_4326`, matching the optional date filter (`date` is the pre-parsed
day code of the `text` parameter; a null parameter disables the filter,
a given one also excludes rows with null `permit_issuance_date`), and
overlapping the tile envelope transformed to 4326. -/
def tileSrc (G : PostgisInterp) (s : Store) (z x y : Int) (date : Option Nat) :
    List PermitRow :=
  s.dob_permits.filter (fun p =>
    p.geom_4326.isSome &&
    (match date with
     | none => true
     | some d => p.permit_issuance_date.isSome &&
         ((p.permit_issuance_date.getD 0) / tsPerDay == d)) &&
    (match p.geom_4326 with
     | some g => G.bboxOverlap4326 g (G.transformEnvTo4326 (G.tileEnvelope z x y))
     | none => false))

/-- The `mvtgeom` CTE: zoom-banded snapping, the 3857 bounding-box and
intersection filters, and `ST_AsMVTGeom` clipping (whose null results
are dropped by the `ST_AsMVT` aggregate). -/
def tileMvtRows (G : PostgisInterp) (s : Store) (z x y : Int) (date : Option Nat) :
    List Feature :=
  ((tileSrc G s z x y date).filterMap (fun p =>
    match p.geom_4326 with
    | none => none
    | some g =>
      let g3857 := G.transformTo3857 g
      let env := G.tileEnvelope z x y
      if G.bboxOverlap3857 g3857 env && G.intersects3857 g3857 env then
        let snapped :=
          if z ≤ 6 then G.snapToGrid g3857 64
          else if z ≤ 10 then G.snapToGrid g3857 8
          else g3857
        (G.asMVTGeom snapped env).map (fun cg =>
          { id := p.id
            permit_type := p.permit_type
            permit_status := p.permit_status
            permit_issuance_date := p.permit_issuance_date
            borough := p.borough
            geom := cg })
      else none))

/-- The SQL function `dob_permit_tiles(z, x, y, date)`: a single stable
select; `coalesce(ST_AsMVT(...), empty bytea)` yields the empty byte
string when the aggregate runs over zero rows. -/
def dob_permit_tiles (G : PostgisInterp) (s : Store) (z x y : Int) (date : Option Nat) :
    List Nat :=
  match tileMvtRows G s z x y date with
  | [] => []
  | rows => G.asMVT rows

/-- The tile RPC as a store operation: it is a read (`stable`), so it
returns the store unchanged alongside the bytes. -/
def dob_permit_tiles_op (G : PostgisInterp) (s : Store) (z x y : Int) (date : Option Nat) :
    List Nat × Store :=
  (dob_permit_tiles G s z x y date, s)

/-- The `v_dob_permits_pts` view (`where geom is not null`). -/
def v_dob_permits_pts (s : Store) : List PermitRow :=
  s.dob_permits.filter (fun p => p.geom.isSome)

end DobPermits

namespace DobPermits

/-! ### The tile request handler (edge function tiles)

Path parsing is modelled up to `parseInt`: `zP`, `xP`, `yP` are the
`parseInt` results of the three path segments, with `none` for `NaN`
(non-numeric input).  `todayStr` models
`new Date().toISOString().split(...)[0]`, the current calendar date, and
`now` the cache-write timestamp.  Store reads and writes performed by
the handler are recorded as effects in order. -/

inductive TileEffect where
  | cacheRead (z x y : Int) (since untilKey : String)
  | rpcCall (z x y : Int) (date : Option Nat)
  | cacheWrite (z x y : Int) (since untilKey : String) (mvt : List Nat)
  deriving Repr, DecidableEq

structure TileResponse where
  status : Nat
  body : List Nat
  etag : Option String
  deriving Repr, DecidableEq

structure HandlerResult where
  response : TileResponse
  store : Store
  effects : List TileEffect
  deriving Repr, DecidableEq

/-- The regex `YYYY-MM-DD` (four digits, dash, two digits, dash, two
digits, nothing else). -/
def dateShapeOk (s : String) : Bool :=
  match s.data with
  | [y1, y2, y3, y4, c1, m1, m2, c2, d1, d2] =>
    y1.isDigit && y2.isDigit && y3.isDigit && y4.isDigit &&
    c1 == '-' && m1.isDigit && m2.isDigit && c2 == '-' && d1.isDigit && d2.isDigit
  | _ => false

/-- Validity of `new Date(dateStr + T00:00:00Z)`: for a string of the
accepted shape this is exactly calendar validity of the components. -/
def jsDateValid (s : String) : Bool :=
  match parseYMD? s.data with
  | some (_, _, _, []) => true
  | _ => false

/-- The `.eq(...)` chain of the cache lookup (`.single()` yields an error
on zero rows, i.e. a miss). -/
def mvt_cache_find? (s : Store) (z x y : Int) (since untilKey : String) : Option CacheEntry :=
  s.mvt_cache.find? (fun e =>
    e.layer == "permits" && e.z == z && e.x == x && e.y == y &&
    e.since == since && e.untilKey == untilKey)

/-- The cache upsert on the primary key `(layer, z, x, y, since, until)`. -/
def mvt_cache_upsert (s : Store) (e : CacheEntry) : Store :=
  { s with
    mvt_cache :=
      upsertByKey (fun c => (c.layer, c.z, c.x, c.y, c.since, c.untilKey))
        (fun _ new => new) s.mvt_cache e }

/-- The tail of the handler shared by the cache-hit and non-empty-miss
paths: the empty-tile guard, the ETag computation and the conditional
304. -/
def serveTile (etagOf : List Nat → String) (ifNoneMatch : Option String)
    (bytes : List Nat) (s : Store) (effects : List TileEffect) : HandlerResult :=
  if listLen bytes == 0 then
    { response := { status := 200, body := [], etag := none }, store := s, effects := effects }
  else
    let etagHeader := "\"" ++ etagOf bytes ++ "\""
    if ifNoneMatch == some etagHeader then
      { response := { status := 304, body := [], etag := some etagHeader },
        store := s, effects := effects }
    else
      { response := { status := 200, body := bytes, etag := some etagHeader },
        store := s, effects := effects }

/-- The edge function `tiles` for one GET request. -/
def tilesHandler (G : PostgisInterp) (etagOf : List Nat → String) (s : Store)
    (todayStr : String) (now : Nat) (zP xP yP : Option Int)
    (dateParam : Option String) (ifNoneMatch : Option String) : HandlerResult :=
  match zP, xP, yP with
  | some z, some x, some y =>
    if z < 0 || z > 16 then
      { response := { status := 400, body := [], etag := none }, store := s, effects := [] }
    else
      let maxCoord : Int := (2 : Int) ^ z.toNat
      if x < 0 || x ≥ maxCoord || y < 0 || y ≥ maxCoord then
        { response := { status := 400, body := [], etag := none }, store := s, effects := [] }
      else
        let dateStr :=
          match dateParam with
          | some ds => if ds == "" then todayStr else ds
          | none => todayStr
        if !(dateShapeOk dateStr) then
          { response := { status := 400, body := [], etag := none }, store := s, effects := [] }
        else if !(jsDateValid dateStr) then
          { response := { status := 400, body := [], etag := none }, store := s, effects := [] }
        else
          let readFx := TileEffect.cacheRead z x y dateStr dateStr
          match mvt_cache_find? s z x y dateStr dateStr with
          | some entry =>
            serveTile etagOf ifNoneMatch entry.mvt s [readFx]
          | none =>
            let dateVal := sqlCastDate? dateStr
            let bytes := dob_permit_tiles G s z x y dateVal
            let callFx := TileEffect.rpcCall z x y dateVal
            if listLen bytes == 0 then
              { response := { status := 200, body := [], etag := none },
                store := s, effects := [readFx, callFx] }
            else
              let entry : CacheEntry :=
                { layer := "permits", z := z, x := x, y := y,
                  since := dateStr, untilKey := dateStr, mvt := bytes, updated_at := now }
              serveTile etagOf ifNoneMatch bytes (mvt_cache_upsert s entry)
                [readFx, callFx, TileEffect.cacheWrite z x y dateStr dateStr bytes]
  | _, _, _ =>
    { response := { status := 400, body := [], etag := none }, store := s, effects := [] }

/-- The `z < 0 or z > 16 or x,y outside [0, 2^z) or non-numeric`
rejection condition, as the guardrails of the handler test it. -/
def invalidTileCoords (zP xP yP : Option Int) : Bool :=
  match zP, xP, yP with
  | some z, some x, some y =>
    z < 0 || z > 16 || x < 0 || x ≥ (2 : Int) ^ z.toNat || y < 0 || y ≥ (2 : Int) ^ z.toNat
  | _, _, _ => true

end DobPermits

namespace DobPermits

/-! ### Concrete scenarios

`natSeq a n` is the ascending sequence `a, a+1, ..., a+n-1`; `ascRecs`
lifts it to upstream records carrying only identity and last-modified
timestamp, the order Socrata serves under the engine's
`$order = :updated_at ASC`. -/

def natSeq : Nat → Nat → List Nat
  | _, 0 => []
  | a, n + 1 => a :: natSeq (a + 1) n

def ascRec (i : Nat) : RawRecord :=
  { sysId := some (Nat.repr i), sysUpdatedAt := some i }

def ascRecs (a n : Nat) : List RawRecord :=
  (natSeq a n).map ascRec

/-- The staged row `upsert_dob_permits` builds for `ascRec i`. -/
def ascStaged (i : Nat) : StagedRow :=
  { id := some (Nat.repr i), updated_at := some i, raw := ascRec i }

/-- The `dob_permits` row `upsert_dob_permits` stores for `ascRec i`. -/
def ascPermit (i : Nat) : PermitRow :=
  { id := Nat.repr i, updated_at := i, raw := ascRec i }

/-- The upstream dataset of the pagination scenarios: `PAGE_SIZE + 1`
records with strictly increasing `:updated_at` timestamps `1 ... 5001`. -/
def c1Upstream : List RawRecord :=
  ascRecs 1 (PAGE_SIZE + 1)

/-- A store that has fully applied `c1Upstream` and persisted its
maximum timestamp — the state successive incremental runs leave behind. -/
def c2Store : Store :=
  { emptyStore with
    dob_permits := (natSeq 1 (PAGE_SIZE + 1)).map ascPermit
    dataset_sync_state := some (PAGE_SIZE + 1) }

/-- A page with two owner candidates that both lack a business name. -/
def c3NullNamePage : List RawRecord :=
  [ { sysId := some "A", sysUpdatedAt := some 1, owner_s_first_name := some "ANNA" },
    { sysId := some "B", sysUpdatedAt := some 2, owner_s_first_name := some "BOB" } ]

/-- A page with two owner candidates sharing the non-null business name
ACME, the first-seen one named ZED, the later one named ABE. -/
def c3OrderPage : List RawRecord :=
  [ { sysId := some "A", sysUpdatedAt := some 1,
      owner_s_business_name := some "ACME", owner_s_first_name := some "ZED" },
    { sysId := some "B", sysUpdatedAt := some 2,
      owner_s_business_name := some "ACME", owner_s_first_name := some "ABE" } ]

/-- A page whose single record carries an owner person name and no
business name. -/
def c4Page : List RawRecord :=
  [ { sysId := some "A", sysUpdatedAt := some 100, owner_s_first_name := some "JOHN" } ]

/-- A record whose `expiration_date` is present but empty. -/
def c5EmptyExpRec : RawRecord :=
  { sysId := some "X", sysUpdatedAt := some 5, expiration_date := some "" }

/-- The same record with the field simply missing. -/
def c5MissingExpRec : RawRecord :=
  { sysId := some "X", sysUpdatedAt := some 5 }

/-- A record with a malformed issuance date. -/
def c5MalformedRec : RawRecord :=
  { sysId := some "Y", sysUpdatedAt := some 6, issuance_date := some "banana" }

/-- A fixed interpretation of the PostGIS kernel, used to instantiate
the interpretation-generic tile theorems at concrete inputs. -/
def trivialInterp : PostgisInterp :=
  { tileEnvelope := fun _ _ _ => ((0, 0), (0, 0))
    transformTo3857 := fun p => p
    transformEnvTo4326 := fun e => e
    bboxOverlap4326 := fun _ _ => true
    bboxOverlap3857 := fun _ _ => true
    intersects3857 := fun _ _ => true
    snapToGrid := fun p _ => p
    asMVTGeom := fun p _ => some p
    asMVT := fun _ => [7] }

def trivialEtag : List Nat → String := fun _ => "t"

end DobPermits

namespace DobPermits

/-! ### Proof-scaffolding definitions

`gStage` and `gPermit` are the restrictions of the stage and permit
select lists to records all of whose castable fields are null: on such
records they agree with `stageRecord` and `permitRowOf` definitionally.
The `Nodup` predicates state the primary-key and partial-unique-index
invariants PostgreSQL maintains on the four tables. -/

def gStage (r : RawRecord) : StagedRow :=
  { id := r.sysId, updated_at := r.sysUpdatedAt, raw := r }

def gPermit (st : StagedRow) : PermitRow :=
  { id := st.id.getD "", updated_at := st.updated_at.getD 0, raw := st.raw }

def buildingKeys (t : List BuildingRow) : List String :=
  t.map (fun b => b.bin)

def detailKeys (t : List DetailRow) : List String :=
  t.map (fun d => d.permit_number)

def permitKeys (t : List PermitRow) : List String :=
  t.map (fun p => p.id)

def entityKeys (t : List EntityRow) : List (String × Option String) :=
  (t.filter (fun e => e.business_name.isSome)).map (fun e => (e.entity_type, e.business_name))

/-- The key invariants of the store: primary keys of the three keyed
tables are distinct, and the partial unique index of `dob_entities`
holds. -/
def Store.WF (s : Store) : Prop :=
  (buildingKeys s.dob_buildings).Nodup ∧
  (detailKeys s.dob_permit_details).Nodup ∧
  (permitKeys s.dob_permits).Nodup ∧
  (entityKeys s.dob_entities).Nodup

end DobPermits

namespace DobPermits

/-! ### Helper lemmas -/

theorem foldl_add_one_eq {α : Type} (l : List α) (n : Nat) :
    l.foldl (fun m _ => m + 1) n = n + l.length := by
  induction l generalizing n with
  | nil => simp
  | cons a t ih => simp [List.foldl_cons, ih]; omega

theorem listLen_eq_length {α : Type} (l : List α) : listLen l = l.length := by
  simp [listLen, foldl_add_one_eq]

theorem except_bind_ok {α β : Type} (v : α) (f : α → Except String β) :
    (Except.ok v >>= f) = f v := rfl

theorem mapM_ok {α β : Type} (f : α → Except String β) (g : α → β) :
    ∀ (l : List α), (∀ x ∈ l, f x = Except.ok (g x)) → l.mapM f = Except.ok (l.map g) := by
  intro l
  induction l with
  | nil => intro _; rfl
  | cons a t ih =>
    intro h
    rw [List.mapM_cons, h a (by simp)]
    rw [ih (fun x hx => h x (by simp [hx]))]
    rfl

theorem natSeq_succ (a n : Nat) : natSeq a (n + 1) = a :: natSeq (a + 1) n := rfl

theorem length_natSeq (a n : Nat) : (natSeq a n).length = n := by
  induction n generalizing a with
  | zero => rfl
  | succ m ih => simp [natSeq, ih]

theorem ascRecs_zero (a : Nat) : ascRecs a 0 = [] := rfl

theorem ascRecs_succ (a n : Nat) : ascRecs a (n + 1) = ascRec a :: ascRecs (a + 1) n := by
  simp [ascRecs, natSeq_succ]

theorem length_ascRecs (a n : Nat) : (ascRecs a n).length = n := by
  simp [ascRecs, length_natSeq]

theorem filter_ascRecs_all (p : RawRecord → Bool) (wm : Nat)
    (hp : ∀ i, p (ascRec i) = decide (wm < i)) :
    ∀ (n a : Nat), wm < a → (ascRecs a n).filter p = ascRecs a n := by
  intro n
  induction n with
  | zero => intro a _; rfl
  | succ m ih =>
    intro a h
    rw [ascRecs_succ]
    simp [List.filter_cons, hp a, h, ih (a + 1) (Nat.lt_succ_of_lt h)]

theorem filter_ascRecs (p : RawRecord → Bool) (wm : Nat)
    (hp : ∀ i, p (ascRec i) = decide (wm < i)) :
    ∀ (n a : Nat), a ≤ wm + 1 →
      (ascRecs a n).filter p = ascRecs (wm + 1) (a + n - (wm + 1)) := by
  intro n
  induction n with
  | zero =>
    intro a h
    have hz : a + 0 - (wm + 1) = 0 := by omega
    rw [hz, ascRecs_zero, ascRecs_zero]
    rfl
  | succ m ih =>
    intro a h
    rw [ascRecs_succ]
    rcases Nat.lt_or_ge wm a with hlt | hge
    · have ha : a = wm + 1 := by omega
      have hn : a + (m + 1) - (wm + 1) = m + 1 := by omega
      rw [List.filter_cons]
      simp only [hp a, hlt, decide_True, if_true]
      rw [filter_ascRecs_all p wm hp m (a + 1) (by omega), hn, ← ha, ascRecs_succ]
    · have hd : ¬ (wm < a) := by omega
      have hn : a + 1 + m - (wm + 1) = a + (m + 1) - (wm + 1) := by omega
      rw [List.filter_cons]
      simp only [hp a, hd, decide_False]
      rw [if_neg (by simp)]
      rw [ih (a + 1) (by omega), hn]

theorem drop_ascRecs : ∀ (k a n : Nat), (ascRecs a n).drop k = ascRecs (a + k) (n - k) := by
  intro k
  induction k with
  | zero => intro a n; simp
  | succ j ih =>
    intro a n
    cases n with
    | zero =>
      have hz : 0 - (j + 1) = 0 := by omega
      rw [ascRecs_zero, hz, ascRecs_zero, List.drop_nil]
    | succ m =>
      rw [ascRecs_succ, List.drop_succ_cons, ih (a + 1) m]
      have h1 : a + 1 + j = a + (j + 1) := by omega
      have h2 : m - j = m + 1 - (j + 1) := by omega
      rw [h1, h2]

theorem take_ascRecs : ∀ (k a n : Nat), (ascRecs a n).take k = ascRecs a (min k n) := by
  intro k
  induction k with
  | zero => intro a n; simp [ascRecs_zero]
  | succ j ih =>
    intro a n
    cases n with
    | zero => rw [ascRecs_zero]; simp [ascRecs_zero]
    | succ m =>
      rw [ascRecs_succ, List.take_succ_cons, ih (a + 1) m, Nat.succ_min_succ, ascRecs_succ]

end DobPermits

namespace DobPermits

theorem fetch_ascRecs (wm a n off lim : Nat) (h : a ≤ wm + 1) :
    fetchPage (ascRecs a n) wm none off lim =
      ascRecs (wm + 1 + off) (min lim (a + n - (wm + 1) - off)) := by
  rw [fetchPage]
  rw [filter_ascRecs _ wm (fun i => by simp [ascRec]) n a h]
  rw [drop_ascRecs, take_ascRecs]

theorem any_ascRecs_true (p : RawRecord → Bool) (wm : Nat)
    (hp : ∀ i, p (ascRec i) = decide (wm < i)) (a n : Nat) (h1 : wm < a) (h2 : 0 < n) :
    (ascRecs a n).any p = true := by
  cases n with
  | zero => omega
  | succ m =>
    rw [ascRecs_succ, List.any_cons]
    simp [hp a, h1]

theorem any_ascRecs_eq_false (m' : Nat) : ∀ (n a : Nat), a + n ≤ m' →
    ((ascRecs a n).any (fun r => r.sysUpdatedAt == some m')) = false := by
  intro n
  induction n with
  | zero => intro a _; rfl
  | succ k ih =>
    intro a h
    rw [ascRecs_succ, List.any_cons]
    have h1 : ((ascRec a).sysUpdatedAt == some m') = false := by
      simp [ascRec]
      omega
    rw [h1, ih (a + 1) (by omega)]
    rfl

theorem any_ascRecs_eq_true (m' : Nat) : ∀ (n a : Nat), a ≤ m' → m' < a + n →
    ((ascRecs a n).any (fun r => r.sysUpdatedAt == some m')) = true := by
  intro n
  induction n with
  | zero => intro a h1 h2; omega
  | succ k ih =>
    intro a h1 h2
    rw [ascRecs_succ, List.any_cons]
    rcases Nat.eq_or_lt_of_le h1 with heq | hlt
    · simp [ascRec, heq]
    · rw [ih (a + 1) (by omega) (by omega)]
      simp

theorem stagePage_ascRecs (a n : Nat) :
    stagePage (ascRecs a n) = Except.ok ((natSeq a n).map ascStaged) := by
  have h := mapM_ok stageRecord gStage (ascRecs a n) ?hyp
  case hyp =>
    intro x hx
    rcases List.mem_map.mp hx with ⟨i, _, rfl⟩
    rfl
  rw [stagePage, h, ascRecs, List.map_map]
  have hg : gStage ∘ ascRec = ascStaged := funext (fun i => rfl)
  rw [hg]

theorem filterMap_none_nil {α β : Type} : ∀ (l : List α),
    (l.map (fun _ => (none : Option β))).filterMap id = [] := by
  intro l
  induction l with
  | nil => rfl
  | cons a t ih => simpa using ih

theorem detailRowsOf_ascStaged (a n : Nat) :
    detailRowsOf ((natSeq a n).map ascStaged) = Except.ok [] := by
  have h := mapM_ok detailCast (fun _ => (none : Option DetailRow)) ((natSeq a n).map ascStaged) ?hyp
  case hyp =>
    intro x hx
    rcases List.mem_map.mp hx with ⟨i, _, rfl⟩
    rfl
  rw [detailRowsOf, h, except_bind_ok, filterMap_none_nil]
  rfl

theorem permitRowsOf_ascStaged (a n : Nat) :
    permitRowsOf ((natSeq a n).map ascStaged) = Except.ok ((natSeq a n).map ascPermit) := by
  have h := mapM_ok permitRowOf gPermit ((natSeq a n).map ascStaged) ?hyp
  case hyp =>
    intro x hx
    rcases List.mem_map.mp hx with ⟨i, _, rfl⟩
    rfl
  rw [permitRowsOf, h, List.map_map]
  have hg : gPermit ∘ ascStaged = ascPermit := funext (fun i => rfl)
  rw [hg]

theorem nat_max_right (x y : Nat) (h : x ≤ y) : Nat.max x y = y := by
  simp only [Nat.max_def]
  split_ifs <;> omega

theorem nat_max_absorb (x y z : Nat) (h : y ≤ z) : Nat.max (Nat.max x y) z = Nat.max x z := by
  simp only [Nat.max_def]
  split_ifs <;> omega

theorem maxTs_go (n : Nat) : ∀ (a m : Nat),
    (natSeq a n).foldl (fun acc t =>
      match acc with
      | none => some t
      | some mm => some (max mm t)) (some m) =
      some (if n = 0 then m else Nat.max m (a + n - 1)) := by
  induction n with
  | zero => intro a m; rfl
  | succ k ih =>
    intro a m
    simp only [natSeq_succ, List.foldl_cons]
    rw [ih (a + 1) (Nat.max m a)]
    cases k with
    | zero => simp
    | succ j =>
      have h1 : a + 1 + (j + 1) - 1 = a + (j + 1) := by omega
      have h2 : a + (j + 1 + 1) - 1 = a + (j + 1) := by omega
      simp only [h1, h2]
      rw [if_neg (by omega), if_neg (by omega), nat_max_absorb m a (a + (j + 1)) (by omega)]

theorem maxTs_natSeq (a n : Nat) (h : 0 < n) : maxTs? (natSeq a n) = some (a + n - 1) := by
  cases n with
  | zero => omega
  | succ k =>
    rw [maxTs?, natSeq_succ, List.foldl_cons]
    have hstep := maxTs_go k (a + 1) a
    simp only [List.foldl] at hstep ⊢
    rw [hstep]
    cases k with
    | zero => simp
    | succ j =>
      have h1 : a + 1 + (j + 1) - 1 = a + (j + 1) := by omega
      have h2 : a + (j + 1 + 1) - 1 = a + (j + 1) := by omega
      rw [if_neg (by omega), h1, h2, nat_max_right a (a + (j + 1)) (by omega)]

theorem filterMap_some_nat : ∀ (l : List Nat), l.filterMap (fun i => some i) = l := by
  intro l
  induction l with
  | nil => rfl
  | cons a t ih => simpa using ih

theorem filterMap_updated_ascStaged (a n : Nat) :
    ((natSeq a n).map ascStaged).filterMap (fun r => r.updated_at) = natSeq a n := by
  rw [List.filterMap_map]
  have hg : ((fun (r : StagedRow) => r.updated_at) ∘ ascStaged) = fun i => some i :=
    funext (fun i => rfl)
  rw [hg, filterMap_some_nat]

theorem upsert_ascRecs (s : Store) (a n : Nat) (hn : 0 < n) :
    ∃ s2 res, upsert_dob_permits (ascRecs a n) s = Except.ok (s2, res) ∧
      res.max_updated = some (a + n - 1) := by
  unfold upsert_dob_permits
  rw [stagePage_ascRecs, except_bind_ok, detailRowsOf_ascStaged, except_bind_ok,
    permitRowsOf_ascStaged, except_bind_ok]
  refine ⟨_, _, rfl, ?_⟩
  show maxTs? (((natSeq a n).map ascStaged).filterMap (fun r => r.updated_at)) = some (a + n - 1)
  rw [filterMap_updated_ascStaged, maxTs_natSeq a n hn]

end DobPermits

namespace DobPermits

/-- Unfolding of one loop iteration that fetches a short or empty page:
the run ends successfully. -/
theorem syncLoop_step_stop (u : List RawRecord) (p : Option Nat) (fuel : Nat)
    (st : LoopState) (recs : List RawRecord)
    (hf : fetchPage u st.newestSeen p (st.page * PAGE_SIZE) PAGE_SIZE = recs)
    (hL : listLen recs = 0) :
    syncLoop u p (fuel + 1) st = (st, true) := by
  rw [syncLoop, hf, hL]
  simp

/-- Unfolding of one loop iteration that fetches a full page whose
upsert succeeds and advances the rolling watermark. -/
theorem syncLoop_step_continue (u : List RawRecord) (p : Option Nat) (fuel : Nat)
    (st : LoopState) (recs : List RawRecord) (L M : Nat) (s2 : Store) (res : UpsertResult)
    (hf : fetchPage u st.newestSeen p (st.page * PAGE_SIZE) PAGE_SIZE = recs)
    (hL : listLen recs = L) (hL0 : (L == 0) = false)
    (hup : upsert_dob_permits recs st.store = Except.ok (s2, res))
    (hmax : res.max_updated = some M) (hadv : st.newestSeen < M)
    (hcont : ¬ (L < PAGE_SIZE)) :
    syncLoop u p (fuel + 1) st =
      syncLoop u p fuel
        { page := st.page + 1, newestSeen := M, maxUpdatedAt := some M, store := s2,
          totalProcessed := st.totalProcessed + L,
          totalInserted := st.totalInserted + res.inserted,
          totalUpdated := st.totalUpdated + res.updated,
          appliedPages := st.appliedPages ++ [recs] } := by
  rw [syncLoop, hf, hL, hup]
  simp only [hL0, Bool.false_eq_true, if_false, hmax, decide_eq_true hadv, if_true,
    Option.getD_some, if_neg hcont]

theorem loop_scenario (s : Store) (fuel : Nat) :
    ∃ s2 tIns tUpd,
      syncLoop c1Upstream none (fuel + 2)
        { page := 0, newestSeen := 0, maxUpdatedAt := none, store := s,
          totalProcessed := 0, totalInserted := 0, totalUpdated := 0, appliedPages := [] } =
      ({ page := 1, newestSeen := 5000, maxUpdatedAt := some 5000, store := s2,
         totalProcessed := 5000, totalInserted := tIns, totalUpdated := tUpd,
         appliedPages := [ascRecs 1 5000] }, true) := by
  obtain ⟨s2, res, hup, hmax0⟩ := upsert_ascRecs s 1 5000 (by omega)
  have hmax : res.max_updated = some 5000 := by rw [hmax0]
  refine ⟨s2, res.inserted, res.updated, ?_⟩
  have hfetch1 : fetchPage c1Upstream 0 none (0 * PAGE_SIZE) PAGE_SIZE = ascRecs 1 5000 := by
    rw [show c1Upstream = ascRecs 1 5001 from rfl]
    rw [fetch_ascRecs 0 1 5001 (0 * PAGE_SIZE) PAGE_SIZE (by omega)]
    norm_num [PAGE_SIZE]
  have hfetch2 : fetchPage c1Upstream 5000 none (1 * PAGE_SIZE) PAGE_SIZE = ascRecs 10001 0 := by
    rw [show c1Upstream = ascRecs 1 5001 from rfl]
    rw [fetch_ascRecs 5000 1 5001 (1 * PAGE_SIZE) PAGE_SIZE (by omega)]
    norm_num [PAGE_SIZE]
  have hlen1 : listLen (ascRecs 1 5000) = 5000 := by
    rw [listLen_eq_length, length_ascRecs]
  have hlen2 : listLen (ascRecs 10001 0) = 0 := by
    rw [listLen_eq_length, length_ascRecs]
  rw [show fuel + 2 = (fuel + 1) + 1 from rfl]
  have hstep1 := syncLoop_step_continue c1Upstream none (fuel + 1)
    { page := 0, newestSeen := 0, maxUpdatedAt := none, store := s,
      totalProcessed := 0, totalInserted := 0, totalUpdated := 0, appliedPages := [] }
    (ascRecs 1 5000) 5000 5000 s2 res hfetch1 hlen1 (by decide) hup hmax
    (show (0 : Nat) < 5000 by decide) (show ¬ ((5000 : Nat) < PAGE_SIZE) by decide)
  rw [hstep1]
  have hstep2 := syncLoop_step_stop c1Upstream none fuel
    { page := 0 + 1, newestSeen := 5000, maxUpdatedAt := some 5000, store := s2,
      totalProcessed := 0 + 5000, totalInserted := 0 + res.inserted,
      totalUpdated := 0 + res.updated, appliedPages := [] ++ [ascRecs 1 5000] }
    (ascRecs 10001 0) hfetch2 hlen2
  rw [hstep2]
  simp

end DobPermits

namespace DobPermits

/-- Unfolding of `runSync` for an incremental run with no explicit range
whose preflight probe finds newer data, in terms of the loop result. -/
theorem runSync_incremental_run (u : List RawRecord) (s : Store) (now : Nat) (st' : LoopState)
    (hany : (u.any (fun r =>
      match r.sysUpdatedAt with
      | some t => decide (current_dob_watermark s < t)
      | none => false)) = true)
    (hloop : syncLoop u none (listLen u + 2)
      { page := 0, newestSeen := current_dob_watermark s, maxUpdatedAt := none, store := s,
        totalProcessed := 0, totalInserted := 0, totalUpdated := 0,
        appliedPages := [] } = (st', true)) :
    runSync SyncMode.incremental none none now u s =
      { success := true
        mode := SyncMode.incremental
        totalProcessed := st'.totalProcessed
        totalInserted := st'.totalInserted
        totalUpdated := st'.totalUpdated
        lastSyncedUpdatedAt := st'.maxUpdatedAt
        store :=
          if st'.maxUpdatedAt.isSome then
            { st'.store with dataset_sync_state := some (st'.maxUpdatedAt.getD now) }
          else st'.store
        appliedPages := st'.appliedPages } := by
  rw [runSync]
  rw [show resolveWatermark SyncMode.incremental none s = some (current_dob_watermark s) from rfl]
  rw [show preflightSkips SyncMode.incremental none none (some (current_dob_watermark s)) u =
    !(hasNewer u (current_dob_watermark s)) from rfl]
  rw [show hasNewer u (current_dob_watermark s) = true from hany]
  rw [show Option.getD (some (current_dob_watermark s)) 0 = current_dob_watermark s from rfl]
  simp only [Bool.not_true, Bool.false_eq_true, if_false, hloop]
  rw [show finishRun SyncMode.incremental none none now (st', true) =
    { success := true
      mode := SyncMode.incremental
      totalProcessed := st'.totalProcessed
      totalInserted := st'.totalInserted
      totalUpdated := st'.totalUpdated
      lastSyncedUpdatedAt := st'.maxUpdatedAt
      store :=
        if (st'.maxUpdatedAt.isSome || false) then
          { st'.store with dataset_sync_state := some (st'.maxUpdatedAt.getD now) }
        else st'.store
      appliedPages := st'.appliedPages } from rfl]
  simp only [Bool.or_false]

/-- Unfolding of `runSync` for a historical run with no explicit range,
in terms of the loop result. -/
theorem runSync_historical_run (u : List RawRecord) (s : Store) (now : Nat) (st' : LoopState)
    (hloop : syncLoop u none (listLen u + 2)
      { page := 0, newestSeen := 0, maxUpdatedAt := none, store := s,
        totalProcessed := 0, totalInserted := 0, totalUpdated := 0,
        appliedPages := [] } = (st', true)) :
    runSync SyncMode.historical none none now u s =
      { success := true
        mode := SyncMode.historical
        totalProcessed := st'.totalProcessed
        totalInserted := st'.totalInserted
        totalUpdated := st'.totalUpdated
        lastSyncedUpdatedAt := st'.maxUpdatedAt
        store := { st'.store with dataset_sync_state := some (st'.maxUpdatedAt.getD now) }
        appliedPages := st'.appliedPages } := by
  rw [runSync]
  rw [show resolveWatermark SyncMode.historical none s = none from rfl]
  rw [show preflightSkips SyncMode.historical none none none u = false from rfl]
  rw [show Option.getD (none : Option Nat) 0 = 0 from rfl]
  simp only [Bool.false_eq_true, if_false, hloop]
  rw [show finishRun SyncMode.historical none none now (st', true) =
    { success := true
      mode := SyncMode.historical
      totalProcessed := st'.totalProcessed
      totalInserted := st'.totalInserted
      totalUpdated := st'.totalUpdated
      lastSyncedUpdatedAt := st'.maxUpdatedAt
      store :=
        if (st'.maxUpdatedAt.isSome || true) then
          { st'.store with dataset_sync_state := some (st'.maxUpdatedAt.getD now) }
        else st'.store
      appliedPages := st'.appliedPages } from rfl]
  simp only [Bool.or_true, if_true]

end DobPermits

namespace DobPermits

/-- C1: the claim that every upstream record with `updated_at` strictly
above the run's starting watermark is applied by exactly one page before
the run terminates fails on the code: on the 5001-record ascending
upstream `c1Upstream`, the incremental run from the empty store (starting
watermark epoch) terminates successfully while the record with
`updated_at = 5001` — strictly above the starting watermark — is applied
by no page, because the `$offset = page * PAGE_SIZE` pagination advances
on top of the tightened rolling-watermark filter. -/
theorem C1_run_skips_record_above_watermark :
    (runSync SyncMode.incremental none none 0 c1Upstream emptyStore).success = true ∧
    (c1Upstream.any (fun r => r.sysUpdatedAt == some 5001)) = true ∧
    ((runSync SyncMode.incremental none none 0 c1Upstream emptyStore).appliedPages.flatten.any
      (fun r => r.sysUpdatedAt == some 5001)) = false := by
  obtain ⟨s2, tIns, tUpd, hloop⟩ := loop_scenario emptyStore (listLen c1Upstream)
  have hany : (c1Upstream.any (fun r =>
      match r.sysUpdatedAt with
      | some t => decide (current_dob_watermark emptyStore < t)
      | none => false)) = true :=
    any_ascRecs_true _ (current_dob_watermark emptyStore) (fun i => rfl) 1 5001
      (by decide) (by omega)
  have hloop0 : syncLoop c1Upstream none (listLen c1Upstream + 2)
      { page := 0, newestSeen := current_dob_watermark emptyStore, maxUpdatedAt := none,
        store := emptyStore, totalProcessed := 0, totalInserted := 0, totalUpdated := 0,
        appliedPages := [] } =
      ({ page := 1, newestSeen := 5000, maxUpdatedAt := some 5000, store := s2,
         totalProcessed := 5000, totalInserted := tIns, totalUpdated := tUpd,
         appliedPages := [ascRecs 1 5000] }, true) := hloop
  have hrun := runSync_incremental_run c1Upstream emptyStore 0 _ hany hloop0
  refine ⟨?_, ?_, ?_⟩
  · rw [hrun]
  · exact any_ascRecs_eq_true 5001 5001 1 (by omega) (by omega)
  · rw [hrun]
    show (([ascRecs 1 5000] : List (List RawRecord)).flatten.any
      (fun r => r.sysUpdatedAt == some 5001)) = false
    rw [show ([ascRecs 1 5000] : List (List RawRecord)).flatten = ascRecs 1 5000 ++ [] from rfl]
    rw [List.any_append]
    rw [any_ascRecs_eq_false 5001 5000 1 (by omega)]
    rfl

/-- C2: the claim that the persisted sync watermark is non-decreasing
across successful runs fails on the code: starting from `c2Store` — the
store left behind by incremental runs that fully applied `c1Upstream`
and persisted watermark 5001 — a successful historical re-run over the
same upstream overwrites `dataset_sync_state` with 5000, because the
offset-plus-rolling-watermark pagination skips the newest record and the
sync-state upsert is an unconditional last-write-wins. -/
theorem C2_historical_rerun_lowers_persisted_watermark :
    c2Store.dataset_sync_state = some 5001 ∧
    (runSync SyncMode.historical none none 0 c1Upstream c2Store).success = true ∧
    (runSync SyncMode.historical none none 0 c1Upstream c2Store).store.dataset_sync_state =
      some 5000 := by
  obtain ⟨s2, tIns, tUpd, hloop⟩ := loop_scenario c2Store (listLen c1Upstream)
  have hloop0 : syncLoop c1Upstream none (listLen c1Upstream + 2)
      { page := 0, newestSeen := 0, maxUpdatedAt := none, store := c2Store,
        totalProcessed := 0, totalInserted := 0, totalUpdated := 0, appliedPages := [] } =
      ({ page := 1, newestSeen := 5000, maxUpdatedAt := some 5000, store := s2,
         totalProcessed := 5000, totalInserted := tIns, totalUpdated := tUpd,
         appliedPages := [ascRecs 1 5000] }, true) := hloop
  have hrun := runSync_historical_run c1Upstream c2Store 0 _ hloop0
  refine ⟨rfl, ?_, ?_⟩
  · rw [hrun]
  · rw [hrun]
    rfl

end DobPermits

namespace DobPermits

/-! ### Counting lemmas for the entity dedup (C3) -/

theorem sortInsert_any {ρ : Type} (lt : ρ → ρ → Bool) (p : ρ → Bool) (r : ρ) :
    ∀ (l : List ρ), (sortInsert lt r l).any p = (p r || l.any p) := by
  intro l
  induction l with
  | nil => rfl
  | cons x xs ih =>
    rw [sortInsert]
    by_cases h : lt r x = true
    · simp [h, List.any_cons]
    · simp [h, List.any_cons, ih, Bool.or_left_comm]

theorem sortBy_any {ρ : Type} (lt : ρ → ρ → Bool) (p : ρ → Bool) :
    ∀ (l acc : List ρ),
      ((l.foldl (fun a r => sortInsert lt r a) acc).any p) = (acc.any p || l.any p) := by
  intro l
  induction l with
  | nil => intro acc; simp
  | cons r rs ih =>
    intro acc
    rw [List.foldl_cons, ih, sortInsert_any, List.any_cons, Bool.or_assoc, Bool.or_left_comm]

theorem dedupFold_any {ρ κ : Type} [BEq κ] [LawfulBEq κ] (key : ρ → κ) (k : κ) :
    ∀ (l acc : List ρ),
      ((l.foldl (fun a r => if a.any (fun x => key x == key r) then a else a ++ [r]) acc).any
        (fun x => key x == k)) =
      (acc.any (fun x => key x == k) || l.any (fun x => key x == k)) := by
  intro l
  induction l with
  | nil => intro acc; simp
  | cons r rs ih =>
    intro acc
    rw [List.foldl_cons]
    by_cases hc : acc.any (fun x => key x == key r) = true
    · rw [if_pos hc, ih, List.any_cons]
      by_cases hk : (key r == k) = true
      · have hak : acc.any (fun x => key x == k) = true := by
          rcases List.any_eq_true.mp hc with ⟨x, hx, hbeq⟩
          refine List.any_eq_true.mpr ⟨x, hx, ?_⟩
          rw [show key x = key r from eq_of_beq hbeq]
          exact hk
        rw [hak, hk]
        rfl
      · rw [Bool.eq_false_iff.mpr hk]
        rw [Bool.false_or]
    · rw [if_neg hc, ih, List.any_append, List.any_cons]
      simp [Bool.or_assoc]

theorem dedupByKey_any {ρ κ : Type} [BEq κ] [LawfulBEq κ] (key : ρ → κ) (k : κ) (l : List ρ) :
    ((dedupByKey key l).any (fun x => key x == k)) = (l.any (fun x => key x == k)) := by
  rw [dedupByKey, dedupFold_any]
  rfl

theorem dedupFold_pairwise {ρ κ : Type} [BEq κ] [LawfulBEq κ] (key : ρ → κ) :
    ∀ (l acc : List ρ), acc.Pairwise (fun x y => ¬ key x = key y) →
      ((l.foldl (fun a r => if a.any (fun x => key x == key r) then a else a ++ [r])
        acc).Pairwise (fun x y => ¬ key x = key y)) := by
  intro l
  induction l with
  | nil => intro acc h; exact h
  | cons r rs ih =>
    intro acc hacc
    rw [List.foldl_cons]
    by_cases hc : acc.any (fun x => key x == key r) = true
    · rw [if_pos hc]
      exact ih acc hacc
    · rw [if_neg hc]
      refine ih (acc ++ [r]) ?_
      rw [List.pairwise_append]
      refine ⟨hacc, List.pairwise_singleton _ _, ?_⟩
      intro x hx y hy
      have hyr : y = r := List.mem_singleton.mp hy
      intro hkey
      refine hc (List.any_eq_true.mpr ⟨x, hx, beq_iff_eq.mpr ?_⟩)
      rw [← hyr]
      exact hkey

theorem dedupByKey_pairwise {ρ κ : Type} [BEq κ] [LawfulBEq κ] (key : ρ → κ) (l : List ρ) :
    (dedupByKey key l).Pairwise (fun x y => ¬ key x = key y) := by
  rw [dedupByKey]
  exact dedupFold_pairwise key l [] (List.Pairwise.nil)

end DobPermits

namespace DobPermits

theorem sortBy_any_eq {ρ : Type} (lt : ρ → ρ → Bool) (p : ρ → Bool) (l : List ρ) :
    (sortBy lt l).any p = l.any p := by
  rw [sortBy, sortBy_any]
  rfl

theorem entitiesFold_count (et : String) (bn : Option String) :
    ∀ (cs : List EntityCand) (t : List EntityRow) (nid : Nat),
      cs.Pairwise (fun c d =>
        ¬ ((c.entity_type, c.business_name) = (d.entity_type, d.business_name))) →
      (∀ c ∈ cs, (t.any (fun e => entityKeyMatch e c)) = false) →
      ((cs.foldl entitiesInsertStep (t, nid)).1.filter
        (fun e => e.entity_type == et && e.business_name == bn)).length =
      (t.filter (fun e => e.entity_type == et && e.business_name == bn)).length +
        (if cs.any (fun c => c.entity_type == et && c.business_name == bn) then 1 else 0) := by
  intro cs
  induction cs with
  | nil => intro t nid _ _; simp
  | cons c cs ih =>
    intro t nid hpw hconf
    have hpw' := List.pairwise_cons.mp hpw
    have hc : (t.any (fun e => entityKeyMatch e c)) = false := hconf c (by simp)
    have hstep : entitiesInsertStep (t, nid) c = (t ++ [entityRowOfCand nid c], nid + 1) := by
      rw [entitiesInsertStep]
      simp [hc]
    rw [List.foldl_cons, hstep]
    have hconf' : ∀ d ∈ cs,
        ((t ++ [entityRowOfCand nid c]).any (fun e => entityKeyMatch e d)) = false := by
      intro d hd
      rw [List.any_append, hconf d (by simp [hd]), Bool.false_or]
      have hkey : ¬ ((c.entity_type, c.business_name) = (d.entity_type, d.business_name)) :=
        hpw'.1 d hd
      simp only [List.any_cons, List.any_nil, Bool.or_false]
      rw [show entityKeyMatch (entityRowOfCand nid c) d =
        (c.entity_type == d.entity_type && c.business_name == d.business_name) from rfl]
      rw [Bool.eq_false_iff]
      intro hand
      rcases (Bool.and_eq_true _ _).mp hand with ⟨h1, h2⟩
      exact hkey (by rw [Prod.mk.injEq]; exact ⟨eq_of_beq h1, eq_of_beq h2⟩)
    rw [ih (t ++ [entityRowOfCand nid c]) (nid + 1) hpw'.2 hconf']
    rw [List.filter_append, List.length_append, List.any_cons]
    by_cases hm : (c.entity_type == et && c.business_name == bn) = true
    · have hrest : (cs.any (fun d => d.entity_type == et && d.business_name == bn)) = false := by
        rw [Bool.eq_false_iff]
        intro hany
        rcases List.any_eq_true.mp hany with ⟨d, hd, hmd⟩
        rcases (Bool.and_eq_true _ _).mp hm with ⟨hm1, hm2⟩
        rcases (Bool.and_eq_true _ _).mp hmd with ⟨hd1, hd2⟩
        refine hpw'.1 d hd ?_
        rw [Prod.mk.injEq]
        exact ⟨(eq_of_beq hm1).trans (eq_of_beq hd1).symm,
          (eq_of_beq hm2).trans (eq_of_beq hd2).symm⟩
      rw [hrest, hm]
      have hone : (([entityRowOfCand nid c] : List EntityRow).filter
          (fun e => e.entity_type == et && e.business_name == bn)).length = 1 := by
        simp [List.filter_cons, entityRowOfCand, hm]
      rw [hone]
      simp
    · have hmf : (c.entity_type == et && c.business_name == bn) = false :=
        Bool.eq_false_iff.mpr hm
      have hzero : (([entityRowOfCand nid c] : List EntityRow).filter
          (fun e => e.entity_type == et && e.business_name == bn)).length = 0 := by
        simp [List.filter_cons, entityRowOfCand, hmf]
      rw [hzero, hmf]
      simp

end DobPermits

namespace DobPermits

/-- C3 (counterexample): the claim that records with a null business
name are never deduplicated within a page, and that dedup keeps the
first-seen record, is false on the code.  Applying `c3NullNamePage`
(two owner candidates, both without business name) to the empty store
yields a single owner Entity row — the `distinct on` groups null
business names together — and applying `c3OrderPage` keeps the
candidate that sorts first by person name (ABE), not the first-seen one
(ZED). -/
theorem C3_null_names_collapse_within_page :
    (match upsert_dob_permits c3NullNamePage emptyStore with
      | Except.ok (s, _) =>
        s.dob_entities.map (fun e => (e.entity_type, e.full_name, e.business_name))
      | Except.error _ => []) = [("owner", some "ANNA", none)] ∧
    (match upsert_dob_permits c3OrderPage emptyStore with
      | Except.ok (s, _) => s.dob_entities.map (fun e => (e.full_name, e.business_name))
      | Except.error _ => []) = [(some "ABE", some "ACME")] := by
  constructor
  · decide
  · decide

/-- C3 (amended): within one page applied to an empty entity table, the
bulk upsert stores exactly one Entity row per `(role, business_name)`
group present among the page's candidates, where — as in PostgreSQL's
`distinct on` — all candidates of a role with a null business name form
a single group (collapsed to the candidate that sorts first by business
name then person name), rather than one row per occurrence. -/
theorem C3_one_entity_row_per_role_name_group (staged : List StagedRow) (et : String)
    (bn : Option String) :
    ((entitiesApply [] 0 staged).1.filter
      (fun e => e.entity_type == et && e.business_name == bn)).length =
    (if (entityCands staged).any (fun c => c.entity_type == et && c.business_name == bn)
      then 1 else 0) := by
  rw [entitiesApply]
  have hpw : (entitySurvivors staged).Pairwise (fun c d =>
      ¬ ((c.entity_type, c.business_name) = (d.entity_type, d.business_name))) :=
    dedupByKey_pairwise (fun c : EntityCand => (c.entity_type, c.business_name)) _
  have hconf : ∀ c ∈ entitySurvivors staged,
      (([] : List EntityRow).any (fun e => entityKeyMatch e c)) = false := by
    intro c _
    rfl
  rw [entitiesFold_count et bn (entitySurvivors staged) [] 0 hpw hconf]
  have hsurv : ((entitySurvivors staged).any
      (fun c => c.entity_type == et && c.business_name == bn)) =
      ((entityCands staged).any (fun c => c.entity_type == et && c.business_name == bn)) := by
    have h1 : ((entitySurvivors staged).any
        (fun c => (fun x : EntityCand => (x.entity_type, x.business_name)) c == (et, bn))) =
        ((sortBy entityOrderLt (entityCands staged)).any
          (fun c => (fun x : EntityCand => (x.entity_type, x.business_name)) c == (et, bn))) := by
      rw [entitySurvivors]
      exact dedupByKey_any (fun x : EntityCand => (x.entity_type, x.business_name)) (et, bn) _
    have h2 := sortBy_any_eq entityOrderLt
      (fun c : EntityCand => (fun x : EntityCand => (x.entity_type, x.business_name)) c == (et, bn))
      (entityCands staged)
    exact h1.trans h2
  rw [hsurv]
  simp

end DobPermits

namespace DobPermits

/-! ### Keyed-table lemmas for re-application (C4) -/

theorem upsertByKey_any_self {ρ κ : Type} [BEq κ] [LawfulBEq κ] (key : ρ → κ)
    (t : List ρ) (r : ρ) :
    ((upsertByKey key (fun _ new => new) t r).any (fun x => key x == key r)) = true := by
  rw [upsertByKey]
  by_cases hc : t.any (fun x => key x == key r) = true
  · rw [if_pos hc]
    rcases List.any_eq_true.mp hc with ⟨x, hx, hbeq⟩
    refine List.any_eq_true.mpr ⟨r, ?_, beq_iff_eq.mpr rfl⟩
    refine List.mem_map.mpr ⟨x, hx, ?_⟩
    rw [if_pos hbeq]
  · rw [if_neg hc]
    refine List.any_eq_true.mpr ⟨r, ?_, beq_iff_eq.mpr rfl⟩
    simp

theorem upsertByKey_any_mono {ρ κ : Type} [BEq κ] [LawfulBEq κ] (key : ρ → κ)
    (t : List ρ) (r : ρ) (k : κ) (h : t.any (fun x => key x == k) = true) :
    ((upsertByKey key (fun _ new => new) t r).any (fun x => key x == k)) = true := by
  rw [upsertByKey]
  by_cases hc : t.any (fun x => key x == key r) = true
  · rw [if_pos hc]
    rcases List.any_eq_true.mp h with ⟨x, hx, hbeq⟩
    by_cases hm : (key x == key r) = true
    · refine List.any_eq_true.mpr ⟨r, List.mem_map.mpr ⟨x, hx, by rw [if_pos hm]⟩, ?_⟩
      rw [beq_iff_eq] at hbeq ⊢
      rw [← eq_of_beq hm, hbeq]
    · refine List.any_eq_true.mpr ⟨x, List.mem_map.mpr ⟨x, hx, by rw [if_neg hm]⟩, hbeq⟩
  · rw [if_neg hc]
    rw [List.any_append, h, Bool.true_or]

theorem foldUpsert_any {ρ κ : Type} [BEq κ] [LawfulBEq κ] (key : ρ → κ) :
    ∀ (rows t : List ρ) (r : ρ), r ∈ rows →
      ((foldUpsert key (fun _ new => new) t rows).any (fun x => key x == key r)) = true := by
  intro rows
  induction rows with
  | nil => intro t r h; cases h
  | cons r0 rest ih =>
    intro t r hr
    rw [foldUpsert, List.foldl_cons]
    rcases List.mem_cons.mp hr with heq | hmem
    · subst heq
      have hself := upsertByKey_any_self key t r
      have hall : ∀ (rs : List ρ) (t2 : List ρ),
          (t2.any (fun x => key x == key r)) = true →
          ((rs.foldl (upsertByKey key (fun _ new => new)) t2).any
            (fun x => key x == key r)) = true := by
        intro rs
        induction rs with
        | nil => intro t2 h2; exact h2
        | cons q qs ihq =>
          intro t2 h2
          rw [List.foldl_cons]
          exact ihq _ (upsertByKey_any_mono key t2 q _ h2)
      exact hall rest _ hself
    · exact ih (upsertByKey key (fun _ new => new) t r0) r hmem

end DobPermits

namespace DobPermits

theorem list_map_self {α : Type} (f : α → α) :
    ∀ (l : List α), (∀ x ∈ l, f x = x) → l.map f = l := by
  intro l
  induction l with
  | nil => intro _; rfl
  | cons a t ih =>
    intro h
    rw [List.map_cons, h a (List.mem_cons_self _ _),
      ih (fun x hx => h x (List.mem_cons_of_mem _ hx))]

theorem list_map_congr {α β : Type} (f g : α → β) :
    ∀ (l : List α), (∀ x ∈ l, f x = g x) → l.map f = l.map g := by
  intro l
  induction l with
  | nil => intro _; rfl
  | cons a t ih =>
    intro h
    rw [List.map_cons, List.map_cons, h a (List.mem_cons_self _ _),
      ih (fun x hx => h x (List.mem_cons_of_mem _ hx))]

theorem upsertByKey_keys_nodup {ρ κ : Type} [BEq κ] [LawfulBEq κ] (key : ρ → κ)
    (t : List ρ) (r : ρ) (h : (t.map key).Nodup) :
    ((upsertByKey key (fun _ new => new) t r).map key).Nodup := by
  rw [upsertByKey]
  by_cases hc : t.any (fun x => key x == key r) = true
  · rw [if_pos hc]
    have hkeys : ((t.map (fun x => if key x == key r then r else x)).map key) = t.map key := by
      rw [List.map_map]
      refine list_map_congr _ _ t (fun x hx => ?_)
      by_cases hm : (key x == key r) = true
      · simp only [Function.comp, if_pos hm]
        exact (eq_of_beq hm).symm
      · simp only [Function.comp, if_neg hm]
    rw [hkeys]
    exact h
  · rw [if_neg hc, List.map_append]
    have hnot : key r ∉ t.map key := by
      intro hmem
      rcases List.mem_map.mp hmem with ⟨x, hx, hkx⟩
      exact hc (List.any_eq_true.mpr ⟨x, hx, beq_iff_eq.mpr hkx⟩)
    simp [List.nodup_append, h, hnot]

theorem foldUpsert_keys_nodup {ρ κ : Type} [BEq κ] [LawfulBEq κ] (key : ρ → κ) :
    ∀ (rows t : List ρ), (t.map key).Nodup →
      ((foldUpsert key (fun _ new => new) t rows).map key).Nodup := by
  intro rows
  induction rows with
  | nil => intro t h; exact h
  | cons r0 rest ih =>
    intro t h
    rw [foldUpsert, List.foldl_cons]
    exact ih _ (upsertByKey_keys_nodup key t r0 h)

theorem upsertByKey_match_of_ne {ρ κ : Type} [BEq κ] [LawfulBEq κ] (key : ρ → κ)
    (t : List ρ) (r : ρ) (k : κ) (hne : ¬ key r = k) (x : ρ)
    (hx : x ∈ upsertByKey key (fun _ new => new) t r) (hk : key x = k) : x ∈ t := by
  rw [upsertByKey] at hx
  by_cases hc : t.any (fun y => key y == key r) = true
  · rw [if_pos hc] at hx
    rcases List.mem_map.mp hx with ⟨y, hy, hyx⟩
    by_cases hm : (key y == key r) = true
    · rw [if_pos hm] at hyx
      subst hyx
      exact absurd hk hne
    · rw [if_neg hm] at hyx
      subst hyx
      exact hy
  · rw [if_neg hc] at hx
    rcases List.mem_append.mp hx with h1 | h2
    · exact h1
    · have hxr : x = r := List.mem_singleton.mp h2
      subst hxr
      exact absurd hk hne

theorem foldUpsert_match_of_notin {ρ κ : Type} [BEq κ] [LawfulBEq κ] (key : ρ → κ) :
    ∀ (rows t : List ρ) (k : κ), (∀ q ∈ rows, ¬ key q = k) →
      ∀ x ∈ foldUpsert key (fun _ new => new) t rows, key x = k → x ∈ t := by
  intro rows
  induction rows with
  | nil => intro t k _ x hx _; exact hx
  | cons r0 rest ih =>
    intro t k hq x hx hk
    rw [foldUpsert, List.foldl_cons] at hx
    have hx1 : x ∈ upsertByKey key (fun _ new => new) t r0 :=
      ih _ k (fun q hqr => hq q (List.mem_cons_of_mem _ hqr)) x hx hk
    exact upsertByKey_match_of_ne key t r0 k (hq r0 (List.mem_cons_self _ _)) x hx1 hk

theorem upsertByKey_match_self {ρ κ : Type} [BEq κ] [LawfulBEq κ] (key : ρ → κ)
    (t : List ρ) (r : ρ) (x : ρ)
    (hx : x ∈ upsertByKey key (fun _ new => new) t r) (hk : key x = key r) : x = r := by
  rw [upsertByKey] at hx
  by_cases hc : t.any (fun y => key y == key r) = true
  · rw [if_pos hc] at hx
    rcases List.mem_map.mp hx with ⟨y, hy, hyx⟩
    by_cases hm : (key y == key r) = true
    · rw [if_pos hm] at hyx
      exact hyx.symm
    · rw [if_neg hm] at hyx
      subst hyx
      exact absurd (beq_iff_eq.mpr hk) (by simpa using hm)
  · rw [if_neg hc] at hx
    rcases List.mem_append.mp hx with h1 | h2
    · have hany : t.any (fun y => key y == key r) = true :=
        List.any_eq_true.mpr ⟨x, h1, beq_iff_eq.mpr hk⟩
      exact absurd hany hc
    · exact List.mem_singleton.mp h2

theorem foldUpsert_match_eq {ρ κ : Type} [BEq κ] [LawfulBEq κ] (key : ρ → κ) :
    ∀ (rows t : List ρ), ((rows.map key).Nodup) → ((t.map key).Nodup) →
      ∀ r ∈ rows, ∀ x ∈ foldUpsert key (fun _ new => new) t rows, key x = key r → x = r := by
  intro rows
  induction rows with
  | nil => intro t _ _ r hr; cases hr
  | cons r0 rest ih =>
    intro t hrows ht r hr x hx hk
    rw [foldUpsert, List.foldl_cons] at hx
    have hnodup : (∀ q ∈ rest, ¬ key q = key r0) ∧ (List.map key rest).Nodup := by
      simpa using hrows
    rcases List.mem_cons.mp hr with heq | hmem
    · subst heq
      have hmem_t1 := foldUpsert_match_of_notin key rest _ (key r) hnodup.1 x hx hk
      exact upsertByKey_match_self key t r x hmem_t1 hk
    · exact ih _ hnodup.2 (upsertByKey_keys_nodup key t r0 ht) r hmem x hx hk

theorem foldUpsert_id {ρ κ : Type} [BEq κ] [LawfulBEq κ] (key : ρ → κ) :
    ∀ (rows t : List ρ),
      (∀ r ∈ rows, (t.any (fun x => key x == key r)) = true ∧
        (∀ x ∈ t, key x = key r → x = r)) →
      foldUpsert key (fun _ new => new) t rows = t := by
  intro rows
  induction rows with
  | nil => intro t _; rfl
  | cons r0 rest ih =>
    intro t h
    have h0 := h r0 (List.mem_cons_self _ _)
    have hstep : upsertByKey key (fun _ new => new) t r0 = t := by
      rw [upsertByKey, if_pos h0.1]
      refine list_map_self _ t (fun x hx => ?_)
      by_cases hm : (key x == key r0) = true
      · rw [if_pos hm]
        exact (h0.2 x hx (eq_of_beq hm)).symm
      · rw [if_neg hm]
    rw [foldUpsert, List.foldl_cons, hstep]
    exact ih t (fun r hr => h r (List.mem_cons_of_mem _ hr))

end DobPermits

namespace DobPermits

/-! ### Entity-fold lemmas for re-application (C4) -/

theorem entitiesStep_any_mono (c d : EntityCand) (t : List EntityRow) (n : Nat)
    (h : t.any (fun e => entityKeyMatch e d) = true) :
    ((entitiesInsertStep (t, n) c).1.any (fun e => entityKeyMatch e d)) = true := by
  rw [entitiesInsertStep]
  by_cases hc : (c.business_name.isSome && t.any (fun e => entityKeyMatch e c)) = true
  · rw [if_pos hc]
    rcases List.any_eq_true.mp h with ⟨e, he, hm⟩
    by_cases hmc : entityKeyMatch e c = true
    · refine List.any_eq_true.mpr
        ⟨entityRowOfCand e.entity_id c, List.mem_map.mpr ⟨e, he, by rw [if_pos hmc]⟩, ?_⟩
      show (c.entity_type == d.entity_type && c.business_name == d.business_name) = true
      have h2 := (Bool.and_eq_true _ _).mp hmc
      rw [← eq_of_beq h2.1, ← eq_of_beq h2.2]
      exact hm
    · exact List.any_eq_true.mpr ⟨e, List.mem_map.mpr ⟨e, he, by rw [if_neg hmc]⟩, hm⟩
  · rw [if_neg hc]
    show ((t ++ [entityRowOfCand n c]).any (fun e => entityKeyMatch e d)) = true
    rw [List.any_append, h, Bool.true_or]

theorem entitiesFold_any_mono (d : EntityCand) :
    ∀ (cs : List EntityCand) (t : List EntityRow) (n : Nat),
      t.any (fun e => entityKeyMatch e d) = true →
      ((cs.foldl entitiesInsertStep (t, n)).1.any (fun e => entityKeyMatch e d)) = true := by
  intro cs
  induction cs with
  | nil => intro t n h; exact h
  | cons c rest ih =>
    intro t n h
    rw [List.foldl_cons]
    exact ih (entitiesInsertStep (t, n) c).1 (entitiesInsertStep (t, n) c).2
      (entitiesStep_any_mono c d t n h)

theorem entitiesStep_any_self (c : EntityCand) (t : List EntityRow) (n : Nat) :
    ((entitiesInsertStep (t, n) c).1.any (fun e => entityKeyMatch e c)) = true := by
  rw [entitiesInsertStep]
  by_cases hc : (c.business_name.isSome && t.any (fun e => entityKeyMatch e c)) = true
  · rw [if_pos hc]
    rcases List.any_eq_true.mp ((Bool.and_eq_true _ _).mp hc).2 with ⟨e, he, hm⟩
    refine List.any_eq_true.mpr
      ⟨entityRowOfCand e.entity_id c, List.mem_map.mpr ⟨e, he, by rw [if_pos hm]⟩, ?_⟩
    show (c.entity_type == c.entity_type && c.business_name == c.business_name) = true
    simp
  · rw [if_neg hc]
    refine List.any_eq_true.mpr ⟨entityRowOfCand n c, by simp, ?_⟩
    show (c.entity_type == c.entity_type && c.business_name == c.business_name) = true
    simp

theorem entitiesStep_shape_self (c : EntityCand) (hbn : c.business_name.isSome = true)
    (t : List EntityRow) (n : Nat) :
    ∀ e ∈ (entitiesInsertStep (t, n) c).1, entityKeyMatch e c = true →
      e = entityRowOfCand e.entity_id c := by
  rw [entitiesInsertStep]
  by_cases hc : (c.business_name.isSome && t.any (fun e => entityKeyMatch e c)) = true
  · rw [if_pos hc]
    intro e he hm
    rcases List.mem_map.mp he with ⟨x, hx, hxe⟩
    by_cases hmx : entityKeyMatch x c = true
    · rw [if_pos hmx] at hxe
      subst hxe
      rfl
    · rw [if_neg hmx] at hxe
      subst hxe
      exact absurd hm hmx
  · rw [if_neg hc]
    intro e he hm
    rcases List.mem_append.mp he with h1 | h2
    · have hany : t.any (fun x => entityKeyMatch x c) = true :=
        List.any_eq_true.mpr ⟨e, h1, hm⟩
      rw [hbn, hany] at hc
      exact absurd rfl hc
    · have hxe : e = entityRowOfCand n c := List.mem_singleton.mp h2
      subst hxe
      rfl

theorem entitiesStep_shape_preserve (c d : EntityCand)
    (hne : ¬ ((d.entity_type, d.business_name) = (c.entity_type, c.business_name)))
    (t : List EntityRow) (n : Nat)
    (h : ∀ e ∈ t, entityKeyMatch e c = true → e = entityRowOfCand e.entity_id c) :
    ∀ e ∈ (entitiesInsertStep (t, n) d).1, entityKeyMatch e c = true →
      e = entityRowOfCand e.entity_id c := by
  have hfresh : ∀ (i : Nat), ¬ entityKeyMatch (entityRowOfCand i d) c = true := by
    intro i hm
    have h2 := (Bool.and_eq_true _ _).mp hm
    have he1 : d.entity_type = c.entity_type := eq_of_beq h2.1
    have he2 : d.business_name = c.business_name := eq_of_beq h2.2
    exact hne (by rw [he1, he2])
  rw [entitiesInsertStep]
  by_cases hc : (d.business_name.isSome && t.any (fun e => entityKeyMatch e d)) = true
  · rw [if_pos hc]
    intro e he hm
    rcases List.mem_map.mp he with ⟨x, hx, hxe⟩
    by_cases hmx : entityKeyMatch x d = true
    · rw [if_pos hmx] at hxe
      subst hxe
      exact absurd hm (hfresh x.entity_id)
    · rw [if_neg hmx] at hxe
      subst hxe
      exact h x hx hm
  · rw [if_neg hc]
    intro e he hm
    rcases List.mem_append.mp he with h1 | h2
    · exact h e h1 hm
    · have hxe : e = entityRowOfCand n d := List.mem_singleton.mp h2
      subst hxe
      exact absurd hm (hfresh n)

theorem entitiesFold_shape_mono (c : EntityCand) :
    ∀ (cs : List EntityCand) (t : List EntityRow) (n : Nat),
      (∀ d ∈ cs, ¬ ((d.entity_type, d.business_name) = (c.entity_type, c.business_name))) →
      (∀ e ∈ t, entityKeyMatch e c = true → e = entityRowOfCand e.entity_id c) →
      ∀ e ∈ (cs.foldl entitiesInsertStep (t, n)).1, entityKeyMatch e c = true →
        e = entityRowOfCand e.entity_id c := by
  intro cs
  induction cs with
  | nil => intro t n _ h; exact h
  | cons d rest ih =>
    intro t n hne h
    rw [List.foldl_cons]
    exact ih (entitiesInsertStep (t, n) d).1 (entitiesInsertStep (t, n) d).2
      (fun q hq => hne q (List.mem_cons_of_mem _ hq))
      (entitiesStep_shape_preserve c d (hne d (List.mem_cons_self _ _)) t n h)

theorem entitiesFold_establish (c : EntityCand) (hbn : c.business_name.isSome = true) :
    ∀ (cs : List EntityCand) (t : List EntityRow) (n : Nat),
      c ∈ cs →
      cs.Pairwise (fun a b =>
        ¬ ((a.entity_type, a.business_name) = (b.entity_type, b.business_name))) →
      ((cs.foldl entitiesInsertStep (t, n)).1.any (fun e => entityKeyMatch e c)) = true ∧
      (∀ e ∈ (cs.foldl entitiesInsertStep (t, n)).1, entityKeyMatch e c = true →
        e = entityRowOfCand e.entity_id c) := by
  intro cs
  induction cs with
  | nil => intro t n hmem; cases hmem
  | cons c0 rest ih =>
    intro t n hmem hpair
    rw [List.foldl_cons]
    have hp := List.pairwise_cons.mp hpair
    rcases List.mem_cons.mp hmem with heq | hmemr
    · subst heq
      constructor
      · exact entitiesFold_any_mono c rest _ _ (entitiesStep_any_self c t n)
      · exact entitiesFold_shape_mono c rest _ _
          (fun d hd hde => hp.1 d hd (hde.symm))
          (entitiesStep_shape_self c hbn t n)
    · exact ih (entitiesInsertStep (t, n) c0).1 (entitiesInsertStep (t, n) c0).2 hmemr hp.2

theorem entitiesFold_filter_id :
    ∀ (cs : List EntityCand) (t : List EntityRow) (n : Nat),
      (∀ c ∈ cs, c.business_name.isSome = true →
        (t.any (fun e => entityKeyMatch e c)) = true ∧
        (∀ e ∈ t, entityKeyMatch e c = true → e = entityRowOfCand e.entity_id c)) →
      ((cs.foldl entitiesInsertStep (t, n)).1.filter (fun e => e.business_name.isSome) =
        t.filter (fun e => e.business_name.isSome)) := by
  intro cs
  induction cs with
  | nil => intro t n _; rfl
  | cons c rest ih =>
    intro t n h
    rw [List.foldl_cons]
    by_cases hbn : c.business_name.isSome = true
    · have hc := h c (List.mem_cons_self _ _) hbn
      have hstep : entitiesInsertStep (t, n) c = (t, n) := by
        rw [entitiesInsertStep, if_pos (by rw [hbn, hc.1]; rfl)]
        have hmap : t.map (fun e => if entityKeyMatch e c then entityRowOfCand e.entity_id c else e) = t := by
          refine list_map_self _ t (fun x hx => ?_)
          by_cases hm : entityKeyMatch x c = true
          · rw [if_pos hm]
            exact (hc.2 x hx hm).symm
          · rw [if_neg hm]
        rw [hmap]
      rw [hstep]
      exact ih t n (fun d hd => h d (List.mem_cons_of_mem _ hd))
    · have hbnf : c.business_name.isSome = false := by
        cases hval : c.business_name.isSome
        · rfl
        · exact absurd hval hbn
      have hstep : entitiesInsertStep (t, n) c = (t ++ [entityRowOfCand n c], n + 1) := by
        rw [entitiesInsertStep, if_neg (by rw [hbnf, Bool.false_and]; exact Bool.false_ne_true)]
      rw [hstep]
      have hrec := ih (t ++ [entityRowOfCand n c]) (n + 1) ?hyp
      case hyp =>
        intro d hd hdbn
        have hdt := h d (List.mem_cons_of_mem _ hd) hdbn
        constructor
        · rw [List.any_append, hdt.1, Bool.true_or]
        · intro e he hm
          rcases List.mem_append.mp he with h1 | h2
          · exact hdt.2 e h1 hm
          · have hxe : e = entityRowOfCand n c := List.mem_singleton.mp h2
            subst hxe
            have h2m := (Bool.and_eq_true _ _).mp hm
            have hbneq : c.business_name = d.business_name :=
              eq_of_beq (show ((entityRowOfCand n c).business_name == d.business_name) = true from h2m.2)
            rw [hbneq] at hbnf
            rw [hdbn] at hbnf
            exact absurd hbnf (by decide)
      rw [hrec, List.filter_append]
      have hsing : [entityRowOfCand n c].filter (fun e => e.business_name.isSome) = [] := by
        simp [List.filter_cons, entityRowOfCand, hbnf]
      rw [hsing, List.append_nil]

end DobPermits

namespace DobPermits

/-! ### Bridges between page records and permit rows (C4) -/

theorem pairwise_key_nodup {ρ κ : Type} (key : ρ → κ) (l : List ρ)
    (h : l.Pairwise (fun x y => ¬ key x = key y)) : (l.map key).Nodup := by
  show (l.map key).Pairwise (fun a b => ¬ a = b)
  exact List.pairwise_map.mpr h

theorem mapM_ok_forall2 {α β : Type} (f : α → Except String β) :
    ∀ (l : List α) (l2 : List β), l.mapM f = Except.ok l2 →
      List.Forall₂ (fun a b => f a = Except.ok b) l l2 := by
  intro l
  induction l with
  | nil =>
    intro l2 h
    have h2 : ([] : List β) = l2 := Except.ok.inj h
    rw [← h2]
    exact List.Forall₂.nil
  | cons a t ih =>
    intro l2 h
    rw [List.mapM_cons] at h
    cases hfa : f a with
    | error e =>
      rw [hfa] at h
      exact Except.noConfusion h
    | ok b =>
      rw [hfa] at h
      cases hbs : t.mapM f with
      | error e =>
        rw [hbs] at h
        exact Except.noConfusion h
      | ok bs =>
        rw [hbs] at h
        have h2 : b :: bs = l2 := Except.ok.inj h
        rw [← h2]
        exact List.Forall₂.cons hfa (ih bs hbs)

theorem forall2_map_eq {α β γ : Type} (R : α → β → Prop) (f : α → γ) (g : β → γ) :
    ∀ (l : List α) (l2 : List β), List.Forall₂ R l l2 → (∀ a b, R a b → f a = g b) →
      l.map f = l2.map g := by
  intro l l2 h hfg
  induction h with
  | nil => rfl
  | cons hr _ ih => rw [List.map_cons, List.map_cons, hfg _ _ hr, ih]

theorem stageRecord_id (r : RawRecord) (st : StagedRow) (h : stageRecord r = Except.ok st) :
    st.id = r.sysId := by
  rw [stageRecord] at h
  cases h1 : castDateCol r.permit_status_date with
  | error e => rw [h1] at h; exact Except.noConfusion h
  | ok v1 =>
  rw [h1] at h
  cases h2 : castDateCol r.expiration_date with
  | error e => rw [h2] at h; exact Except.noConfusion h
  | ok v2 =>
  rw [h2] at h
  cases h3 : castDateCol r.job_start_date with
  | error e => rw [h3] at h; exact Except.noConfusion h
  | ok v3 =>
  rw [h3] at h
  cases h4 : castFloatCol r.gis_latitude with
  | error e => rw [h4] at h; exact Except.noConfusion h
  | ok v4 =>
  rw [h4] at h
  cases h5 : castFloatCol r.gis_longitude with
  | error e => rw [h5] at h; exact Except.noConfusion h
  | ok v5 =>
  rw [h5] at h
  have h6 := Except.ok.inj h
  rw [← h6]

theorem permitRowOf_id (s : StagedRow) (p : PermitRow) (h : permitRowOf s = Except.ok p) :
    s.id = some p.id := by
  rw [permitRowOf] at h
  cases hid : s.id with
  | none => rw [hid] at h; exact Except.noConfusion h
  | some i =>
  rw [hid] at h
  cases hupd : s.updated_at with
  | none => rw [hupd] at h; exact Except.noConfusion h
  | some u =>
  rw [hupd] at h
  cases hiss : guardedTimestampCast s.permit_issuance_date_str with
  | error e => rw [hiss] at h; exact Except.noConfusion h
  | ok iss =>
  rw [hiss] at h
  cases hdob : guardedTimestampCast s.dobrundate_str with
  | error e => rw [hdob] at h; exact Except.noConfusion h
  | ok dob =>
  rw [hdob] at h
  have h6 := Except.ok.inj h
  rw [← h6]

theorem permitIds_eq_sysIds (page : List RawRecord) (staged : List StagedRow)
    (pRows : List PermitRow) (hs : stagePage page = Except.ok staged)
    (hp : permitRowsOf staged = Except.ok pRows) :
    page.map (fun r => r.sysId) = pRows.map (fun p => some p.id) := by
  have f1 := mapM_ok_forall2 stageRecord page staged hs
  have f2 := mapM_ok_forall2 permitRowOf staged pRows hp
  have e1 : page.map (fun r => r.sysId) = staged.map (fun st => st.id) :=
    forall2_map_eq _ _ _ page staged f1
      (fun a b hr => (stageRecord_id a b hr).symm)
  have e2 : staged.map (fun st => st.id) = pRows.map (fun p => some p.id) :=
    forall2_map_eq _ _ _ staged pRows f2
      (fun a b hr => permitRowOf_id a b hr)
  rw [e1, e2]

theorem detailRowsOf_pairwise (staged : List StagedRow) (dRows : List DetailRow)
    (h : detailRowsOf staged = Except.ok dRows) :
    dRows.Pairwise (fun x y => ¬ x.permit_number = y.permit_number) := by
  rw [detailRowsOf] at h
  cases hmc : staged.mapM detailCast with
  | error e => rw [hmc] at h; exact Except.noConfusion h
  | ok l =>
    rw [hmc, except_bind_ok] at h
    have h2 : dedupByKey (fun d => d.permit_number) (l.filterMap id) = dRows :=
      Except.ok.inj h
    rw [← h2]
    exact dedupByKey_pairwise _ _

end DobPermits

namespace DobPermits

/-- Evaluation of one page transaction when all three staging steps
succeed. -/
theorem upsert_dob_permits_ok (page : List RawRecord) (staged : List StagedRow)
    (dRows : List DetailRow) (pRows : List PermitRow) (t : Store)
    (hsp : stagePage page = Except.ok staged)
    (hdr : detailRowsOf staged = Except.ok dRows)
    (hpr : permitRowsOf staged = Except.ok pRows) :
    upsert_dob_permits page t = Except.ok
      ( { t with
          dob_buildings := buildingsApply t.dob_buildings staged
          dob_permit_details := detailsApply t.dob_permit_details dRows
          dob_entities := (entitiesApply t.dob_entities t.nextEntityId staged).1
          nextEntityId := (entitiesApply t.dob_entities t.nextEntityId staged).2
          dob_permits := permitsApply t.dob_permits pRows },
        { inserted := countInserted t.dob_permits pRows
          updated := pRows.length - countInserted t.dob_permits pRows
          max_updated := maxTs? (staged.filterMap (fun r => r.updated_at)) } ) := by
  rw [upsert_dob_permits, hsp, except_bind_ok, hdr, except_bind_ok, hpr, except_bind_ok]

/-- C4 (counterexample): applying the same page twice does NOT produce
identical store state.  `c4Page` carries one record whose only entity
candidate is an owner with a person name and no business name; the
second application of the very same page re-inserts that null-named
entity, growing `dob_entities` from one row to two, so the resulting
stores differ. -/
theorem C4_null_name_entity_reinserted_on_second_delivery :
    ((match upsert_dob_permits c4Page emptyStore with
      | Except.ok (s1, _) =>
        (match upsert_dob_permits c4Page s1 with
          | Except.ok (s2, _) =>
            (decide (s2 = s1), s1.dob_entities.length, s2.dob_entities.length)
          | Except.error _ => (true, 0, 0))
      | Except.error _ => (true, 0, 0)) = (false, 1, 2)) := by decide

/-- C4 (amended): re-applying an already-applied page is idempotent on
`dob_buildings`, `dob_permit_details` and `dob_permits`, and the second
application reports zero inserted permits (every id hits the
on-conflict update path) — but only the non-null-named part of
`dob_entities` is unchanged: null-named entity rows are re-inserted by
every application.  Hypotheses: the store satisfies its key
invariants, and the page does not repeat an id (PostgreSQL rejects
such a page). -/
theorem C4_reapply_identical_outside_null_name_entities
    (page : List RawRecord) (s s1 : Store) (r1 : UpsertResult)
    (hWF : Store.WF s)
    (hids : (page.map (fun r => r.sysId)).Nodup)
    (h1 : upsert_dob_permits page s = Except.ok (s1, r1)) :
    ∃ s2 r2, upsert_dob_permits page s1 = Except.ok (s2, r2) ∧
      s2.dob_buildings = s1.dob_buildings ∧
      s2.dob_permit_details = s1.dob_permit_details ∧
      s2.dob_permits = s1.dob_permits ∧
      r2.inserted = 0 ∧
      s2.dob_entities.filter (fun e => e.business_name.isSome) =
        s1.dob_entities.filter (fun e => e.business_name.isSome) := by
  rw [upsert_dob_permits] at h1
  cases hsp : stagePage page with
  | error e => rw [hsp] at h1; exact Except.noConfusion h1
  | ok staged =>
  rw [hsp, except_bind_ok] at h1
  cases hdr : detailRowsOf staged with
  | error e => rw [hdr] at h1; exact Except.noConfusion h1
  | ok dRows =>
  rw [hdr, except_bind_ok] at h1
  cases hpr : permitRowsOf staged with
  | error e => rw [hpr] at h1; exact Except.noConfusion h1
  | ok pRows =>
  rw [hpr, except_bind_ok] at h1
  have hpair := Except.ok.inj h1
  have hs1 := congrArg Prod.fst hpair
  subst hs1
  have hprowIds : (pRows.map (fun p => p.id)).Nodup := by
    have hbridge := permitIds_eq_sysIds page staged pRows hsp hpr
    rw [hbridge] at hids
    have hmm : pRows.map (fun p => some p.id) = (pRows.map (fun p => p.id)).map some := by
      rw [List.map_map]
      rfl
    rw [hmm] at hids
    exact hids.of_map
  have hbNodup : ((buildingRowsOf staged).map (fun b => b.bin)).Nodup :=
    pairwise_key_nodup _ _ (dedupByKey_pairwise (fun b => b.bin) (staged.filterMap buildingCand?))
  have hdNodup : (dRows.map (fun d => d.permit_number)).Nodup :=
    pairwise_key_nodup _ _ (detailRowsOf_pairwise staged dRows hdr)
  have hWFb : (s.dob_buildings.map (fun b => b.bin)).Nodup := hWF.1
  have hWFd : (s.dob_permit_details.map (fun d => d.permit_number)).Nodup := hWF.2.1
  have hWFp : (s.dob_permits.map (fun p => p.id)).Nodup := hWF.2.2.1
  refine ⟨_, _, upsert_dob_permits_ok page staged dRows pRows _ hsp hdr hpr, ?_, ?_, ?_, ?_, ?_⟩
  · show foldUpsert (fun b => b.bin) (fun _ new => new)
        (buildingsApply s.dob_buildings staged) (buildingRowsOf staged) =
      buildingsApply s.dob_buildings staged
    refine foldUpsert_id (fun b => b.bin) (buildingRowsOf staged) _ (fun r hr => ?_)
    constructor
    · exact foldUpsert_any (fun b => b.bin) (buildingRowsOf staged) s.dob_buildings r hr
    · intro x hx hk
      have hx2 : x ∈ foldUpsert (fun b => b.bin) (fun _ new => new) s.dob_buildings
          (buildingRowsOf staged) := hx
      exact foldUpsert_match_eq (fun b => b.bin) (buildingRowsOf staged) s.dob_buildings
        hbNodup hWFb r hr x hx2 hk
  · show foldUpsert (fun d => d.permit_number) (fun _ new => new)
        (detailsApply s.dob_permit_details dRows) dRows =
      detailsApply s.dob_permit_details dRows
    refine foldUpsert_id (fun d => d.permit_number) dRows _ (fun r hr => ?_)
    constructor
    · exact foldUpsert_any (fun d => d.permit_number) dRows s.dob_permit_details r hr
    · intro x hx hk
      have hx2 : x ∈ foldUpsert (fun d => d.permit_number) (fun _ new => new)
          s.dob_permit_details dRows := hx
      exact foldUpsert_match_eq (fun d => d.permit_number) dRows s.dob_permit_details
        hdNodup hWFd r hr x hx2 hk
  · show foldUpsert (fun p => p.id) (fun _ new => new)
        (permitsApply s.dob_permits pRows) pRows =
      permitsApply s.dob_permits pRows
    refine foldUpsert_id (fun p => p.id) pRows _ (fun r hr => ?_)
    constructor
    · exact foldUpsert_any (fun p => p.id) pRows s.dob_permits r hr
    · intro x hx hk
      have hx2 : x ∈ foldUpsert (fun p => p.id) (fun _ new => new) s.dob_permits pRows := hx
      exact foldUpsert_match_eq (fun p => p.id) pRows s.dob_permits
        hprowIds hWFp r hr x hx2 hk
  · show countInserted (permitsApply s.dob_permits pRows) pRows = 0
    have hnil : pRows.filter
        (fun r => !((permitsApply s.dob_permits pRows).any (fun x => x.id == r.id))) = [] := by
      rw [List.filter_eq_nil_iff]
      intro a ha
      have hany0 : ((foldUpsert (fun p => p.id) (fun _ new => new) s.dob_permits pRows).any
          (fun x => x.id == a.id)) = true :=
        foldUpsert_any (fun p => p.id) pRows s.dob_permits a ha
      have hany : ((permitsApply s.dob_permits pRows).any (fun x => x.id == a.id)) = true := hany0
      simp [hany]
    have hlen : countInserted (permitsApply s.dob_permits pRows) pRows =
        (pRows.filter
          (fun r => !((permitsApply s.dob_permits pRows).any (fun x => x.id == r.id)))).length :=
      rfl
    rw [hlen, hnil]
    rfl
  · show ((entitySurvivors staged).foldl entitiesInsertStep
        ((entitiesApply s.dob_entities s.nextEntityId staged).1,
         (entitiesApply s.dob_entities s.nextEntityId staged).2)).1.filter
          (fun e => e.business_name.isSome) =
      (entitiesApply s.dob_entities s.nextEntityId staged).1.filter
        (fun e => e.business_name.isSome)
    refine entitiesFold_filter_id (entitySurvivors staged) _ _ (fun c hc hbn => ?_)
    exact entitiesFold_establish c hbn (entitySurvivors staged) s.dob_entities s.nextEntityId hc
      (dedupByKey_pairwise (fun c => (c.entity_type, c.business_name))
        (sortBy entityOrderLt (entityCands staged)))

/-- Witness for C4: both hypotheses hold at the one-record page
`c4Page` applied twice from the empty store, and the conclusion's
equalities are realized there. -/
theorem C4_reapply_identical_outside_null_name_entities_witness :
    ∃ s1 r1 s2 r2,
      upsert_dob_permits c4Page emptyStore = Except.ok (s1, r1) ∧
      upsert_dob_permits c4Page s1 = Except.ok (s2, r2) ∧
      s2.dob_buildings = s1.dob_buildings ∧
      s2.dob_permit_details = s1.dob_permit_details ∧
      s2.dob_permits = s1.dob_permits ∧
      r2.inserted = 0 ∧
      s2.dob_entities.filter (fun e => e.business_name.isSome) =
        s1.dob_entities.filter (fun e => e.business_name.isSome) := by
  obtain ⟨s1, r1, h1⟩ : ∃ s1 r1, upsert_dob_permits c4Page emptyStore = Except.ok (s1, r1) :=
    ⟨_, _, rfl⟩
  obtain ⟨s2, r2, h2, hb, hd, hp, hi, he⟩ :=
    C4_reapply_identical_outside_null_name_entities c4Page emptyStore s1 r1
      ⟨List.nodup_nil, List.nodup_nil, List.nodup_nil, List.nodup_nil⟩ (by decide) h1
  exact ⟨s1, r1, s2, r2, h1, h2, hb, hd, hp, hi, he⟩

end DobPermits

namespace DobPermits

/-! ### Page-failure propagation and sync-state invariance (C5) -/

theorem mapM_error_of_mem {α β : Type} (f : α → Except String β) :
    ∀ (l : List α) (a : α) (e : String), a ∈ l → f a = Except.error e →
      ∃ e2, l.mapM f = Except.error e2 := by
  intro l
  induction l with
  | nil => intro a e h; cases h
  | cons b t ih =>
    intro a e hmem hfa
    rw [List.mapM_cons]
    cases hfb : f b with
    | error eb =>
      exact ⟨eb, rfl⟩
    | ok v =>
      rcases List.mem_cons.mp hmem with heq | hmemt
      · subst heq
        rw [hfa] at hfb
        exact Except.noConfusion hfb
      · rcases ih a e hmemt hfa with ⟨e2, he2⟩
        refine ⟨e2, ?_⟩
        rw [he2]
        rfl

theorem upsert_sync_state (page : List RawRecord) (s s2 : Store) (res : UpsertResult)
    (h : upsert_dob_permits page s = Except.ok (s2, res)) :
    s2.dataset_sync_state = s.dataset_sync_state := by
  cases hsp : stagePage page with
  | error e =>
    rw [upsert_dob_permits, hsp] at h
    exact Except.noConfusion h
  | ok staged =>
  cases hdr : detailRowsOf staged with
  | error e =>
    rw [upsert_dob_permits, hsp, except_bind_ok, hdr] at h
    exact Except.noConfusion h
  | ok dRows =>
  cases hpr : permitRowsOf staged with
  | error e =>
    rw [upsert_dob_permits, hsp, except_bind_ok, hdr, except_bind_ok, hpr] at h
    exact Except.noConfusion h
  | ok pRows =>
  rw [upsert_dob_permits_ok page staged dRows pRows s hsp hdr hpr] at h
  injection h with hpr2
  injection hpr2 with h3 h4
  rw [← h3]

theorem syncLoop_sync_state (u : List RawRecord) (p : Option Nat) :
    ∀ (fuel : Nat) (st : LoopState),
      (syncLoop u p fuel st).1.store.dataset_sync_state = st.store.dataset_sync_state := by
  intro fuel
  induction fuel with
  | zero => intro st; rfl
  | succ n ih =>
    intro st
    rw [syncLoop]
    split
    · rfl
    · split
      · rfl
      next s2 res heq =>
        have hS := upsert_sync_state _ _ _ _ heq
        simp only []
        repeat' split
        all_goals try rw [ih]
        all_goals exact hS

end DobPermits

namespace DobPermits

/-- C5 (counterexample): an empty `expiration_date` does NOT store as
null — its unguarded `::date` cast fails the whole page — while the
same record with the field missing is applied with a null
`expiration_date`. -/
theorem C5_empty_expiration_date_fails_page :
    ((match upsert_dob_permits [c5EmptyExpRec] emptyStore with
       | Except.ok _ => true
       | Except.error _ => false),
     (match upsert_dob_permits [c5MissingExpRec] emptyStore with
       | Except.ok (s, _) => s.dob_permits.map (fun p => p.expiration_date)
       | Except.error _ => [some 0])) = (false, [none]) := by decide

/-- C5 (amended): missing date-like fields store as null, and the empty
string stores as null for the three guarded casts
(`filing_date`, `permit_issuance_date`, `dobrundate`); but for the three
unguarded `::date` casts (`permit_status_date`, `expiration_date`,
`job_start_date`) the empty string is itself a malformed date.  Any
malformed date fails the entire page transaction — whether it fails in
the stage CTE or in the permit-row projection — and a run whose loop
ends in failure leaves the persisted watermark untouched. -/
theorem C5_dates_null_or_fail_closed :
    castDateCol none = Except.ok none ∧
    castTimestampCol none = Except.ok none ∧
    guardedTimestampCast none = Except.ok none ∧
    guardedTimestampCast (some "") = Except.ok none ∧
    (∃ e, castDateCol (some "") = Except.error e) ∧
    (∃ e, castDateCol (some "2024-13-45") = Except.error e) ∧
    (∃ e, guardedTimestampCast (some "banana") = Except.error e) ∧
    (∀ (page : List RawRecord) (s : Store) (e : String),
      stagePage page = Except.error e →
      upsert_dob_permits page s = Except.error e) ∧
    (∀ (page : List RawRecord) (staged : List StagedRow) (dRows : List DetailRow)
       (s : Store) (e : String),
      stagePage page = Except.ok staged →
      detailRowsOf staged = Except.ok dRows →
      permitRowsOf staged = Except.error e →
      upsert_dob_permits page s = Except.error e) ∧
    (∀ (page : List RawRecord) (r : RawRecord) (e : String),
      r ∈ page → stageRecord r = Except.error e →
      ∃ e2, stagePage page = Except.error e2) ∧
    (∀ (mode : SyncMode) (sinceP untilP : Option Nat) (now : Nat)
       (upstream : List RawRecord) (s : Store),
      (runSync mode sinceP untilP now upstream s).success = false →
      (runSync mode sinceP untilP now upstream s).store.dataset_sync_state =
        s.dataset_sync_state) := by
  refine ⟨rfl, rfl, rfl, rfl, ⟨_, rfl⟩, ⟨_, rfl⟩, ⟨_, rfl⟩, ?_, ?_, ?_, ?_⟩
  · intro page s e h
    rw [upsert_dob_permits, h]
    rfl
  · intro page staged dRows s e hsp hdr hpr
    rw [upsert_dob_permits, hsp, except_bind_ok, hdr, except_bind_ok, hpr]
    rfl
  · intro page r e hmem herr
    exact mapM_error_of_mem stageRecord page r e hmem herr
  · intro mode sinceP untilP now upstream s hfail
    rw [runSync] at hfail ⊢
    by_cases hpf : preflightSkips mode sinceP untilP (resolveWatermark mode sinceP s) upstream
        = true
    · rw [if_pos hpf] at hfail
      have hnoop : (noopOutcome mode (resolveWatermark mode sinceP s) s).success = true := rfl
      rw [hnoop] at hfail
      exact Bool.noConfusion hfail
    · rw [if_neg hpf] at hfail ⊢
      revert hfail
      cases hl : syncLoop upstream untilP (listLen upstream + 2)
          { page := 0
            newestSeen := (resolveWatermark mode sinceP s).getD 0
            maxUpdatedAt := none
            store := s
            totalProcessed := 0
            totalInserted := 0
            totalUpdated := 0
            appliedPages := [] } with
      | mk st b =>
      intro hfail
      cases b with
      | true =>
        have htrue : (finishRun mode sinceP untilP now (st, true)).success = true := rfl
        rw [htrue] at hfail
        exact Bool.noConfusion hfail
      | false =>
        show st.store.dataset_sync_state = s.dataset_sync_state
        have hss := syncLoop_sync_state upstream untilP (listLen upstream + 2)
          { page := 0
            newestSeen := (resolveWatermark mode sinceP s).getD 0
            maxUpdatedAt := none
            store := s
            totalProcessed := 0
            totalInserted := 0
            totalUpdated := 0
            appliedPages := [] }
        rw [hl] at hss
        exact hss

/-- Witness for C5: the page holding the one record whose
`expiration_date` is the empty string fails its transaction, and the
run over that upstream fails without touching the persisted sync
state. -/
theorem C5_dates_null_or_fail_closed_witness :
    (∃ e2, upsert_dob_permits [c5EmptyExpRec] emptyStore = Except.error e2) ∧
    (runSync SyncMode.incremental none none 7 [c5EmptyExpRec] emptyStore).success = false ∧
    (runSync SyncMode.incremental none none 7 [c5EmptyExpRec] emptyStore).store.dataset_sync_state =
      emptyStore.dataset_sync_state := by
  obtain ⟨-, -, -, -, -, -, -, hA, hB, hC, hRun⟩ := C5_dates_null_or_fail_closed
  obtain ⟨e, he⟩ : ∃ e, stageRecord c5EmptyExpRec = Except.error e := ⟨_, rfl⟩
  obtain ⟨e2, hsp⟩ := hC [c5EmptyExpRec] c5EmptyExpRec e (List.mem_singleton.mpr rfl) he
  have hsucc : (runSync SyncMode.incremental none none 7 [c5EmptyExpRec] emptyStore).success
      = false := by decide
  exact ⟨⟨e2, hA [c5EmptyExpRec] emptyStore e2 hsp⟩, hsucc,
    hRun SyncMode.incremental none none 7 [c5EmptyExpRec] emptyStore hsucc⟩

end DobPermits

namespace DobPermits

/-- C6: the trigger derives geometry exactly when latitude is in
[-90, 90] and longitude in [-180, 180] (both non-null), as the point
(longitude, latitude); otherwise it derives null, it agrees with
`create_geojson_point`, and rows with null geometry are excluded from
the tile source query and from the spatial view. -/
theorem C6_geometry_from_coords_and_null_excluded :
    (∀ (la lo : Rat), -90 ≤ la → la ≤ 90 → -180 ≤ lo → lo ≤ 180 →
      populate_geom_from_coords (some la) (some lo) = some (lo, la)) ∧
    (∀ (la lo : Rat), ¬ (-90 ≤ la ∧ la ≤ 90 ∧ -180 ≤ lo ∧ lo ≤ 180) →
      populate_geom_from_coords (some la) (some lo) = none) ∧
    (∀ (lo : Option Rat), populate_geom_from_coords none lo = none) ∧
    (∀ (la : Rat), populate_geom_from_coords (some la) none = none) ∧
    (∀ (la lo : Option Rat), populate_geom_from_coords la lo = create_geojson_point la lo) ∧
    (∀ (G : PostgisInterp) (s : Store) (z x y : Int) (date : Option Nat),
      ((tileSrc G s z x y date).all (fun p => p.geom_4326.isSome)) = true) ∧
    (∀ (s : Store), ((v_dob_permits_pts s).all (fun p => p.geom.isSome)) = true) := by
  refine ⟨?_, ?_, ?_, ?_, ?_, ?_, ?_⟩
  · intro la lo h1 h2 h3 h4
    show (if (-90 ≤ la ∧ la ≤ 90 ∧ -180 ≤ lo ∧ lo ≤ 180)
        then some ((lo, la) : Point) else none) = some (lo, la)
    exact if_pos ⟨h1, h2, h3, h4⟩
  · intro la lo h
    show (if (-90 ≤ la ∧ la ≤ 90 ∧ -180 ≤ lo ∧ lo ≤ 180)
        then some ((lo, la) : Point) else none) = none
    exact if_neg h
  · intro lo
    cases lo <;> rfl
  · intro la
    rfl
  · intro la lo
    cases la <;> cases lo <;> rfl
  · intro G s z x y date
    rw [List.all_eq_true]
    intro p hp
    have h2 := (List.mem_filter.mp hp).2
    exact ((Bool.and_eq_true _ _).mp ((Bool.and_eq_true _ _).mp h2).1).1
  · intro s
    rw [List.all_eq_true]
    intro p hp
    exact (List.mem_filter.mp hp).2

/-- Witness for C6: a Manhattan-like coordinate derives its point, and
an out-of-range latitude derives null. -/
theorem C6_geometry_from_coords_and_null_excluded_witness :
    populate_geom_from_coords (some 40) (some (-73)) = some (-73, 40) ∧
    populate_geom_from_coords (some 91) (some 0) = none := by
  obtain ⟨h1, h2, -, -, -, -, -⟩ := C6_geometry_from_coords_and_null_excluded
  refine ⟨h1 40 (-73) (by norm_num) (by norm_num) (by norm_num) (by norm_num), h2 91 0 ?_⟩
  intro hc
  exact absurd hc.2.1 (by norm_num)

/-- C7: tile bytes are a function of the permit table alone — any two
stores agreeing on `dob_permits` yield byte-identical output for every
(zoom, x, y, date) under every PostGIS interpretation — and the tile
RPC is a pure read returning the store unchanged. -/
theorem C7_tiles_pure_and_deterministic :
    (∀ (G : PostgisInterp) (s1 s2 : Store) (z x y : Int) (date : Option Nat),
      s1.dob_permits = s2.dob_permits →
      dob_permit_tiles G s1 z x y date = dob_permit_tiles G s2 z x y date) ∧
    (∀ (G : PostgisInterp) (s : Store) (z x y : Int) (date : Option Nat),
      (dob_permit_tiles_op G s z x y date).2 = s) := by
  constructor
  · intro G s1 s2 z x y date h
    have hsrc : tileSrc G s1 z x y date = tileSrc G s2 z x y date := by
      rw [tileSrc, tileSrc, h]
    have hmvt : tileMvtRows G s1 z x y date = tileMvtRows G s2 z x y date := by
      rw [tileMvtRows, tileMvtRows, hsrc]
    rw [dob_permit_tiles, dob_permit_tiles, hmvt]
  · intro G s z x y date
    rfl

/-- Witness for C7: two stores differing only in the persisted
watermark generate identical bytes for the same tile. -/
theorem C7_tiles_pure_and_deterministic_witness :
    dob_permit_tiles trivialInterp emptyStore 0 0 0 none =
      dob_permit_tiles trivialInterp { emptyStore with dataset_sync_state := some 9 } 0 0 0 none ∧
    (dob_permit_tiles_op trivialInterp emptyStore 0 0 0 (some 1)).2 = emptyStore := by
  obtain ⟨h1, h2⟩ := C7_tiles_pure_and_deterministic
  exact ⟨h1 trivialInterp emptyStore { emptyStore with dataset_sync_state := some 9 } 0 0 0 none rfl,
    h2 trivialInterp emptyStore 0 0 0 (some 1)⟩

end DobPermits

namespace DobPermits

theorem serveTile_effects (etagOf : List Nat → String) (inm : Option String)
    (bytes : List Nat) (s : Store) (fx : List TileEffect) :
    (serveTile etagOf inm bytes s fx).effects = fx := by
  rw [serveTile]
  split
  · rfl
  · simp only []
    split
    · rfl
    · rfl

theorem sqlCastDate_isSome_of_jsValid (s : String) (h : jsDateValid s = true) :
    (sqlCastDate? s).isSome = true := by
  rw [jsDateValid] at h
  cases hp : parseYMD? s.data with
  | none =>
    rw [hp] at h
    exact Bool.noConfusion h
  | some q =>
    obtain ⟨y, m, d, rest⟩ := q
    rw [hp] at h
    cases rest with
    | nil =>
      rw [sqlCastDate?, sqlCastTimestamp?, hp]
      rfl
    | cons c tl =>
      exact Bool.noConfusion h

/-- C8: a cache miss whose generated tile is empty is served as a plain
200 with an empty body, the store is unchanged (no cache write), and
the recorded effects are exactly the cache read and the generator
call. -/
theorem C8_empty_miss_served_200_not_cached
    (G : PostgisInterp) (etagOf : List Nat → String) (s : Store) (todayStr : String)
    (now : Nat) (z x y : Int) (dateStr : String) (inm : Option String)
    (hz : (z < 0 || z > 16) = false)
    (hx : (x < 0 || x ≥ (2 : Int) ^ z.toNat || y < 0 || y ≥ (2 : Int) ^ z.toNat) = false)
    (hshape : dateShapeOk dateStr = true)
    (hvalid : jsDateValid dateStr = true)
    (hmiss : mvt_cache_find? s z x y dateStr dateStr = none)
    (hempty : dob_permit_tiles G s z x y (sqlCastDate? dateStr) = []) :
    tilesHandler G etagOf s todayStr now (some z) (some x) (some y) (some dateStr) inm =
      { response := { status := 200, body := [], etag := none }
        store := s
        effects := [TileEffect.cacheRead z x y dateStr dateStr,
          TileEffect.rpcCall z x y (sqlCastDate? dateStr)] } := by
  have hne : (dateStr == "") = false := by
    cases hc : dateStr == ""
    · rfl
    · rw [eq_of_beq hc] at hshape
      exact Bool.noConfusion hshape
  rw [tilesHandler, hz]
  simp only [Bool.false_eq_true, if_false]
  rw [hx]
  simp only [Bool.false_eq_true, if_false, hne, hshape, hvalid]
  simp only [Bool.not_true, Bool.false_eq_true, if_false]
  rw [hmiss, hempty]
  rfl

/-- Witness for C8: the empty store misses its cache and generates the
empty tile, served 200 with no cache write. -/
theorem C8_empty_miss_served_200_not_cached_witness :
    tilesHandler trivialInterp trivialEtag emptyStore "2024-01-02" 0
        (some 0) (some 0) (some 0) (some "2024-01-02") none =
      { response := { status := 200, body := [], etag := none }
        store := emptyStore
        effects := [TileEffect.cacheRead 0 0 0 "2024-01-02" "2024-01-02",
          TileEffect.rpcCall 0 0 0 (sqlCastDate? "2024-01-02")] } :=
  C8_empty_miss_served_200_not_cached trivialInterp trivialEtag emptyStore "2024-01-02" 0
    0 0 0 "2024-01-02" none (by decide) (by decide) (by decide) (by decide) rfl rfl

end DobPermits

namespace DobPermits

/-- C9: any request with non-numeric coordinates, zoom outside [0, 16],
or x or y outside [0, 2^zoom) is answered 400 with the store unchanged
and no effects — no cache read, no generator call. -/
theorem C9_invalid_coords_rejected_before_cache_or_generator
    (G : PostgisInterp) (etagOf : List Nat → String) (s : Store) (todayStr : String)
    (now : Nat) (zP xP yP : Option Int) (dateParam inm : Option String)
    (h : invalidTileCoords zP xP yP = true) :
    tilesHandler G etagOf s todayStr now zP xP yP dateParam inm =
      { response := { status := 400, body := [], etag := none }, store := s, effects := [] } := by
  cases zP with
  | none => rfl
  | some z =>
  cases xP with
  | none => rfl
  | some x =>
  cases yP with
  | none => rfl
  | some y =>
  have h2 : (z < 0 || z > 16 || x < 0 || x ≥ (2 : Int) ^ z.toNat
      || y < 0 || y ≥ (2 : Int) ^ z.toNat) = true := h
  by_cases hA : (z < 0 || z > 16) = true
  · simp only [tilesHandler]
    rw [hA]
    simp only [if_true]
  · have hA2 : (z < 0 || z > 16) = false := by
      cases hq : (z < 0 || z > 16)
      · rfl
      · exact absurd hq hA
    have hz1 : (decide (z < 0)) = false := ((Bool.or_eq_false_iff).mp hA2).1
    have hz2 : (decide (z > 16)) = false := ((Bool.or_eq_false_iff).mp hA2).2
    have hB : (x < 0 || x ≥ (2 : Int) ^ z.toNat || y < 0 || y ≥ (2 : Int) ^ z.toNat) = true := by
      rw [hz1, hz2] at h2
      simpa using h2
    simp only [tilesHandler]
    rw [hA2]
    simp only [Bool.false_eq_true, if_false]
    rw [hB]
    simp only [if_true]

/-- Witness for C9: Scenario B — zoom 20 is rejected 400 with no
effects. -/
theorem C9_invalid_coords_rejected_witness :
    invalidTileCoords (some 20) (some 0) (some 0) = true ∧
    tilesHandler trivialInterp trivialEtag emptyStore "2024-01-02" 0
        (some 20) (some 0) (some 0) none none =
      { response := { status := 400, body := [], etag := none }
        store := emptyStore
        effects := [] } := by
  constructor
  · decide
  · exact C9_invalid_coords_rejected_before_cache_or_generator trivialInterp trivialEtag
      emptyStore "2024-01-02" 0 (some 20) (some 0) (some 0) none none (by decide)

/-- C10: the endpoint always applies a date filter — a missing or empty
date parameter behaves exactly as the current date, every generator
call the handler can ever make carries a non-null parsed date (the
null-date branch of `dob_permit_tiles` is unreachable through the
handler), and under a date filter every tile-source row has a non-null
issuance date. -/
theorem C10_date_filter_always_applied :
    (∀ (G : PostgisInterp) (etagOf : List Nat → String) (s : Store) (todayStr : String)
       (now : Nat) (zP xP yP : Option Int) (inm : Option String),
      tilesHandler G etagOf s todayStr now zP xP yP none inm =
        tilesHandler G etagOf s todayStr now zP xP yP (some todayStr) inm ∧
      tilesHandler G etagOf s todayStr now zP xP yP (some "") inm =
        tilesHandler G etagOf s todayStr now zP xP yP (some todayStr) inm) ∧
    (∀ (G : PostgisInterp) (etagOf : List Nat → String) (s : Store) (todayStr : String)
       (now : Nat) (zP xP yP : Option Int) (dateParam inm : Option String),
      ((tilesHandler G etagOf s todayStr now zP xP yP dateParam inm).effects.all
        (fun fx => match fx with
          | TileEffect.rpcCall _ _ _ d => d.isSome
          | _ => true)) = true) ∧
    (∀ (G : PostgisInterp) (s : Store) (z x y : Int) (d : Nat),
      ((tileSrc G s z x y (some d)).all (fun p => p.permit_issuance_date.isSome)) = true) := by
  refine ⟨?_, ?_, ?_⟩
  · intro G etagOf s todayStr now zP xP yP inm
    have he : (("" : String) == "") = true := rfl
    constructor
    · cases zP with
      | none => rfl
      | some z =>
      cases xP with
      | none => rfl
      | some x =>
      cases yP with
      | none => rfl
      | some y =>
      simp only [tilesHandler, ite_self]
    · cases zP with
      | none => rfl
      | some z =>
      cases xP with
      | none => rfl
      | some x =>
      cases yP with
      | none => rfl
      | some y =>
      simp only [tilesHandler, he, if_true, ite_self]
  · intro G etagOf s todayStr now zP xP yP dateParam inm
    cases zP with
    | none => rfl
    | some z =>
    cases xP with
    | none => rfl
    | some x =>
    cases yP with
    | none => rfl
    | some y =>
    simp only [tilesHandler]
    generalize (match dateParam with
      | some ds => if (ds == "") = true then todayStr else ds
      | none => todayStr) = DS
    split
    · rfl
    · split
      · rfl
      · split
        · rfl
        · split
          · rfl
          next hvalid =>
            have hv : jsDateValid DS = true := by
              cases hq : jsDateValid DS
              · rw [hq] at hvalid
                exact absurd rfl hvalid
              · rfl
            split
            next entry hfind =>
              rw [serveTile_effects]
              rfl
            next hfind =>
              split
              · simp only [List.all_cons, List.all_nil, Bool.and_true, Bool.true_and]
                exact sqlCastDate_isSome_of_jsValid _ hv
              · rw [serveTile_effects]
                simp only [List.all_cons, List.all_nil, Bool.and_true, Bool.true_and]
                exact sqlCastDate_isSome_of_jsValid _ hv
  · intro G s z x y d
    rw [List.all_eq_true]
    intro p hp
    have h2 : ((p.geom_4326.isSome &&
        (p.permit_issuance_date.isSome &&
          ((p.permit_issuance_date.getD 0) / tsPerDay == d))) &&
        (match p.geom_4326 with
         | some g => G.bboxOverlap4326 g (G.transformEnvTo4326 (G.tileEnvelope z x y))
         | none => false)) = true := (List.mem_filter.mp hp).2
    exact ((Bool.and_eq_true _ _).mp
      ((Bool.and_eq_true _ _).mp ((Bool.and_eq_true _ _).mp h2).1).2).1
